import Mathlib

/-!
Shallow embedding of the performance-counter query engine of
windows_exporter (package pdh) and verification of its specification.

Go strings are modelled as Lean strings; the path parser, which indexes
into the byte array of the path, is modelled over a list of characters
(all characters involved are ASCII).  Go maps are modelled as
association lists in insertion order; map iteration is modelled in
insertion order.  Sample values (float64) are carried through the engine
unchanged and are modelled by rational numbers.  The native PDH query
(an external collaborator the engine only orchestrates) is modelled as a
record of response functions.
-/

namespace Pdh

/-! ## String helpers (Go strings package) -/

/-- Character-level test used by the validity predicate of path segments:
a plain character is none of the three characters the path parser treats
specially. -/
def isPlainChar (c : Char) : Bool :=
  c ≠ '\\' && c ≠ '(' && c ≠ ')'

/-- A path segment is plain when it contains no backslash and no
parenthesis. -/
def plainSeg (l : List Char) : Bool :=
  l.all isPlainChar

/-- Go strings.HasPrefix on character lists: the second list is a prefix
of the first. -/
def startsWithL : List Char → List Char → Bool
  | _, [] => true
  | [], _ :: _ => false
  | a :: s, b :: t => a == b && startsWithL s t

/-- Go strings.Contains on character lists: the second list occurs as a
contiguous substring of the first. -/
def containsL : List Char → List Char → Bool
  | [], t => startsWithL [] t
  | a :: s, t => startsWithL (a :: s) t || containsL s t

/-- Go strings.HasPrefix. -/
def goStartsWith (s t : String) : Bool :=
  startsWithL s.data t.data

/-- Go strings.Contains. -/
def goContains (s t : String) : Bool :=
  containsL s.data t.data

/-! ## PathCodec: formatPath -/

/-- Sentinel instance name denoting the absence of an instance axis
(constant emptyInstance in the source). -/
def emptyInstance : String := "------"

/-- Builds the canonical counter path (function formatPath in the
source): the instance parenthetical is omitted for the sentinel
instance, and the host prefix is omitted for an empty host and for
localhost. -/
def formatPath (computer objectName inst counter : String) : String :=
  let path :=
    if inst = emptyInstance then
      "\\" ++ objectName ++ "\\" ++ counter
    else
      "\\" ++ objectName ++ "(" ++ inst ++ ")" ++ "\\" ++ counter
  if computer ≠ "" ∧ computer ≠ "localhost" then
    "\\" ++ "\\" ++ computer ++ path
  else
    path

/-! ## PathCodec: extractCounterInfoFromCounterPath

The source scans the path right to left, tracking parenthesis nesting
and recording border indices.  The loop state is made explicit. -/

/-- Border indices tracked by the right-to-left scan of
extractCounterInfoFromCounterPath; minus one means not found yet, as in
the source. -/
structure ScanState where
  leftComputerBorderIndex : Int
  rightObjectBorderIndex : Int
  leftObjectBorderIndex : Int
  leftCounterBorderIndex : Int
  rightInstanceBorderIndex : Int
  leftInstanceBorderIndex : Int
  bracketLevel : Int
deriving DecidableEq, Repr

/-- Initial scan state: no border found, bracket level zero. -/
def initScanState : ScanState :=
  ⟨-1, -1, -1, -1, -1, -1, 0⟩

/-- One iteration of the scanning loop of
extractCounterInfoFromCounterPath, at character c sitting at index i of
the path. -/
def scanStep (c : Char) (i : Int) (s : ScanState) : ScanState :=
  if c = '\\' then
    if s.bracketLevel = 0 then
      if s.leftCounterBorderIndex = -1 then
        { s with leftCounterBorderIndex := i }
      else if s.leftObjectBorderIndex = -1 then
        { s with leftObjectBorderIndex := i }
      else if s.leftComputerBorderIndex = -1 then
        { s with leftComputerBorderIndex := i }
      else s
    else s
  else if c = '(' then
    let s := { s with bracketLevel := s.bracketLevel - 1 }
    if s.leftInstanceBorderIndex = -1 ∧ s.bracketLevel = 0 ∧
        s.leftObjectBorderIndex = -1 ∧ s.leftCounterBorderIndex > -1 then
      { s with leftInstanceBorderIndex := i, rightObjectBorderIndex := i }
    else s
  else if c = ')' then
    let s :=
      if s.rightInstanceBorderIndex = -1 ∧ s.bracketLevel = 0 ∧
          s.leftCounterBorderIndex > -1 then
        { s with rightInstanceBorderIndex := i }
      else s
    { s with bracketLevel := s.bracketLevel + 1 }
  else s

/-- Runs the scanning loop over a list of characters whose first element
sits at index i of the path; characters are processed right to left, as
in the source (the loop runs from the last index down to zero). -/
def scanFrom : List Char → Int → ScanState → ScanState
  | [], _, s => s
  | c :: cs, i, s => scanStep c i (scanFrom cs (i + 1) s)

/-- Slice of a character list between two border indices, the Go
expression path[a : b]. -/
def sliceL (l : List Char) (a b : Int) : List Char :=
  (l.drop a.toNat).take (b - a).toNat

/-- Parses a counter path into computer, object, instance and counter
segments (function extractCounterInfoFromCounterPath in the source),
over a list of characters. -/
def extractL (counterPath : List Char) :
    Except String (List Char × List Char × List Char × List Char) :=
  let st := scanFrom counterPath 0 initScanState
  let rightObjectBorderIndex :=
    if st.rightObjectBorderIndex = -1 then st.leftCounterBorderIndex
    else st.rightObjectBorderIndex
  if rightObjectBorderIndex = -1 ∨ st.leftObjectBorderIndex = -1 then
    .error ("cannot parse object from: " ++ String.mk counterPath)
  else if st.leftComputerBorderIndex > -1 ∧
      (st.leftComputerBorderIndex ≠ 1 ∨
        st.leftComputerBorderIndex = st.leftObjectBorderIndex - 1) then
    .error ("cannot parse computer from: " ++ String.mk counterPath)
  else if (st.leftInstanceBorderIndex = -1 ∧ st.rightInstanceBorderIndex > -1) ∨
      (st.leftInstanceBorderIndex > -1 ∧ st.rightInstanceBorderIndex = -1) then
    .error ("cannot parse instance from: " ++ String.mk counterPath)
  else
    let computer :=
      if st.leftComputerBorderIndex > -1 then
        sliceL counterPath (st.leftComputerBorderIndex + 1) st.leftObjectBorderIndex
      else []
    let inst :=
      if st.leftInstanceBorderIndex > -1 ∧ st.rightInstanceBorderIndex > -1 then
        sliceL counterPath (st.leftInstanceBorderIndex + 1) st.rightInstanceBorderIndex
      else []
    let object := sliceL counterPath (st.leftObjectBorderIndex + 1) rightObjectBorderIndex
    let counter := counterPath.drop (st.leftCounterBorderIndex + 1).toNat
    .ok (computer, object, inst, counter)

/-- Parses a counter path into computer, object, instance and counter
(function extractCounterInfoFromCounterPath in the source). -/
def extractCounterInfoFromCounterPath (counterPath : String) :
    Except String (String × String × String × String) :=
  (extractL counterPath.data).map fun r =>
    (String.mk r.1, String.mk r.2.1, String.mk r.2.2.1, String.mk r.2.2.2)

/-! ## Errors and the ErrorClassifier -/

/-- Go error value: a message, and the native PDH error code recoverable
through errors.As across fmt.Errorf wrapping (none when the error does
not wrap a PdhError). -/
structure GoError where
  msg : String
  pdhCode : Option Nat
deriving DecidableEq, Repr

/-- Wrapping with fmt.Errorf and a %w verb: prepends context to the
message and keeps the wrapped native code visible to errors.As. -/
def wrapErr (context : String) (e : GoError) : GoError :=
  ⟨context ++ e.msg, e.pdhCode⟩

/-- Go errors.New. -/
def errorNew (s : String) : GoError :=
  ⟨s, none⟩

/-- Modelled from the spec: native code PDH_INVALID_DATA (the pdh error
constants file is not part of the sources at hand). -/
def PdhInvalidData : Nat := 0xC0000BC6

/-- Modelled from the spec: native code PDH_CALC_NEGATIVE_DENOMINATOR. -/
def PdhCalcNegativeDenominator : Nat := 0x800007D6

/-- Modelled from the spec: native code PDH_CALC_NEGATIVE_VALUE. -/
def PdhCalcNegativeValue : Nat := 0x800007D8

/-- Modelled from the spec: native code PDH_CSTATUS_INVALID_DATA. -/
def PdhCstatusInvalidData : Nat := 0xC0000BBA

/-- Modelled from the spec: native code PDH_NO_DATA. -/
def PdhNoData : Nat := 0x800007D5

/-- Modelled from the spec: native code PDH_CSTATUS_NO_INSTANCE. -/
def PdhCstatusNoInstance : Nat := 0x800007D1

/-- Modelled from the spec: the table mapping native numeric error codes
to their symbolic names (variable PDHErrors; its defining file is not
part of the sources at hand).  A Go map lookup of an unknown code yields
the empty string. -/
def PDHErrors (code : Nat) : String :=
  if code = PdhInvalidData then "PDH_INVALID_DATA"
  else if code = PdhCalcNegativeDenominator then "PDH_CALC_NEGATIVE_DENOMINATOR"
  else if code = PdhCalcNegativeValue then "PDH_CALC_NEGATIVE_VALUE"
  else if code = PdhCstatusInvalidData then "PDH_CSTATUS_INVALID_DATA"
  else if code = PdhNoData then "PDH_NO_DATA"
  else if code = PdhCstatusNoInstance then "PDH_CSTATUS_NO_INSTANCE"
  else ""

/-- Sampling-level error classification (method checkError in the
source): an error wrapping a native PdhError whose symbolic name is in
the configured ignore list is dropped; every other error is returned
unchanged. -/
def checkError (ignoredErrors : List String) (err : GoError) : Option GoError :=
  match err.pdhCode with
  | some code => if ignoredErrors.contains (PDHErrors code) then none else some err
  | none => some err

/-- Per-counter benign-error classification (function
isKnownCounterDataError in the source): true exactly for errors wrapping
one of five fixed native codes. -/
def isKnownCounterDataError (err : GoError) : Bool :=
  match err.pdhCode with
  | some c =>
      c == PdhInvalidData || c == PdhCalcNegativeDenominator ||
      c == PdhCalcNegativeValue || c == PdhCstatusInvalidData || c == PdhNoData
  | none => false

/-! ## Counters and the inclusion test -/

/-- One entry of a multi-instance array read (type CounterValue; its
defining file is not part of the sources at hand, the fields are those
the engine reads). -/
structure CounterValue where
  instanceName : String
  value : Rat
deriving DecidableEq, Repr

/-- A registered counter (struct counter in the source).  The opaque
native handle is modelled by the path string under which it was
registered. -/
structure Counter where
  counterPath : String
  computer : String
  objectName : String
  counter : String
  inst : String
  measurement : String
  includeTotal : Bool
  useRawValue : Bool
  counterHandle : String
deriving DecidableEq, Repr

/-- Builds a counter record (function newCounter in the source; the
local name with the appended raw suffix is computed there but not used
in the record it returns). -/
def newCounter (counterHandle counterPath computer objectName inst counterName
    measurement : String) (includeTotal useRawValue : Bool) : Counter :=
  ⟨counterPath, computer, objectName, counterName, inst, measurement,
    includeTotal, useRawValue, counterHandle⟩

/-- Post-hoc inclusion test of the non-expansion mode (function
shouldIncludeMetric in the source). -/
def shouldIncludeMetric (metric : Counter) (cValue : CounterValue) : Bool :=
  if metric.includeTotal then true
  else if metric.inst == "*" && !(goContains cValue.instanceName "_Total") then true
  else if metric.inst == cValue.instanceName then true
  else if metric.inst == emptyInstance then true
  else false

/-! ## The Accumulator and its map operations -/

/-- Association-list lookup, the read side of a Go map indexing. -/
def alookup {β : Type} : List (String × β) → String → Option β
  | [], _ => none
  | (k, v) :: rest, key => if k = key then some v else alookup rest key

/-- Association-list write, the Go map assignment: replaces the first
binding of the key, or appends a new binding. -/
def aset {β : Type} : List (String × β) → String → β → List (String × β)
  | [], key, v => [(key, v)]
  | (k, w) :: rest, key, v =>
      if k = key then (k, v) :: rest else (k, w) :: aset rest key v

/-- Three-level result mapping object name, counter name and instance
name to a sample value (type Accumulator in the source). -/
abbrev Accumulator := List (String × List (String × List (String × Rat)))

instance accInner1DecEq : DecidableEq (List (String × Rat)) := inferInstance

instance accInner2DecEq : DecidableEq (List (String × List (String × Rat))) := inferInstance

instance accDecEq : DecidableEq Accumulator := inferInstance

/-- Two-level lookup acc[obj][ctr], where indexing a missing object
yields an empty map. -/
def alookup2 (acc : Accumulator) (obj ctr : String) : Option (List (String × Rat)) :=
  match alookup acc obj with
  | none => none
  | some inner => alookup inner ctr

/-- Three-level lookup acc[obj][ctr][inst]. -/
def alookup3 (acc : Accumulator) (obj ctr instName : String) : Option Rat :=
  match alookup2 acc obj ctr with
  | none => none
  | some inner => alookup inner instName

/-- The Go assignment acc[obj][ctr] = inner, performed when acc[obj] is
present. -/
def accSetCounterMap (acc : Accumulator) (obj ctr : String)
    (inner : List (String × Rat)) : Accumulator :=
  aset acc obj (aset ((alookup acc obj).getD []) ctr inner)

/-- The Go assignment acc[obj][ctr][inst] = v, performed when the two
enclosing maps are present. -/
def accSetValue (acc : Accumulator) (obj ctr instName : String) (v : Rat) :
    Accumulator :=
  let inner := (alookup acc obj).getD []
  aset acc obj (aset inner ctr (aset ((alookup inner ctr).getD []) instName v))

/-! ## Native collaborator and engine state

The native performance query is an external collaborator (a syscall
binding) the engine only orchestrates; it is modelled as a record of
response functions keyed by the registered path. -/

/-- Abstract native performance query of one host: the responses its
operations give the engine.  Handles are modelled by the path string a
counter was registered with. -/
structure PerformanceQuery where
  isVistaOrNewer : Bool
  openResult : Option GoError
  addCounterToQuery : String → Except GoError String
  addEnglishCounterToQuery : String → Except GoError String
  getCounterPath : String → Except GoError String
  expandWildCardPath : String → Except GoError (List String)
  collectData : Option GoError
  collectDataWithTime : Option GoError
  closeResult : Option GoError
  getRawCounterValue : String → Except GoError Int
  getFormattedCounterValueDouble : String → Except GoError Rat
  getRawCounterArray : String → Except GoError (List CounterValue)
  getFormattedCounterArrayDouble : String → Except GoError (List CounterValue)

/-- Environment of one run: the query creator (deterministic per host)
and the local host name (none models an os.Hostname failure). -/
structure PdhEnv where
  newPerformanceQuery : String → PerformanceQuery
  osHostname : Option String

/-- One configured performance object (struct PerfObject in the
source). -/
structure PerfObject where
  sources : List String
  objectName : String
  counters : List String
  instances : List String
  measurement : String
  warnOnMissing : Bool
  failOnMissing : Bool
  includeTotal : Bool
  useRawValues : Bool
deriving DecidableEq, Repr

/-- Per-host registration state (struct hostCountersInfo in the source;
the query object itself lives in the environment, and the last-sample
timestamp is written but never read, so it is omitted). -/
structure HostCountersInfo where
  computer : String
  tag : String
  counters : List Counter
deriving DecidableEq, Repr

/-- Engine state (struct WinPerfCounters in the source).  The
lastRefreshed timestamp is only ever tested for being the zero time, so
it is modelled by that test's value; the host map is an association list
in insertion order. -/
structure WinPerfCounters where
  printValid : Bool
  usePerfCounterTime : Bool
  object : List PerfObject
  useWildcardsExpansion : Bool
  localizeWildcardsExpansion : Bool
  ignoredErrors : List String
  sources : List String
  lastRefreshedZero : Bool
  hostCounters : List (String × HostCountersInfo)
  cachedHostname : String
deriving DecidableEq, Repr

/-- Cached local host name (method hostname in the source). -/
def hostname (env : PdhEnv) (m : WinPerfCounters) : String × WinPerfCounters :=
  if m.cachedHostname ≠ "" then (m.cachedHostname, m)
  else
    match env.osHostname with
    | none => ("localhost", { m with cachedHostname := "localhost" })
    | some h => (h, { m with cachedHostname := h })

/-! ## AddItem and the wildcard-expansion loop -/

/-- Body of the loop over expanded concrete paths inside AddItem.  Each
concrete path is registered, parsed, rebuilt against the original
English names when localized expansion is disabled, filtered by the
total-exclusion rule, and appended to the acquired counters.  Returns
the counters appended so far, the log lines emitted, and the error that
ended the loop early, if any. -/
def addItemExpandLoop (q : PerformanceQuery)
    (localizeWildcardsExpansion printValid : Bool)
    (origObjectName origCounterName origInstance measurement : String)
    (includeTotal useRawValue : Bool) :
    List String → List Counter → List String →
      List Counter × List String × Option GoError
  | [], acquired, logs => (acquired, logs, none)
  | counterPath :: rest, acquired, logs =>
    match q.addCounterToQuery counterPath with
    | .error e => (acquired, logs, some e)
    | .ok _ =>
      match extractCounterInfoFromCounterPath counterPath with
      | .error msg => (acquired, logs, some (errorNew msg))
      | .ok (computer, objectName, inst, counterName) =>
        if !localizeWildcardsExpansion then
          let newInstance := if inst = "" then emptyInstance else inst
          let counterPath := formatPath computer origObjectName newInstance origCounterName
          match q.addEnglishCounterToQuery counterPath with
          | .error e => (acquired, logs, some e)
          | .ok counterHandle =>
            let newItem := newCounter counterHandle counterPath computer
              origObjectName inst origCounterName measurement includeTotal useRawValue
            if inst = "_Total" ∧ origInstance = "*" ∧ includeTotal = false then
              addItemExpandLoop q localizeWildcardsExpansion printValid
                origObjectName origCounterName origInstance measurement
                includeTotal useRawValue rest acquired logs
            else
              addItemExpandLoop q localizeWildcardsExpansion printValid
                origObjectName origCounterName origInstance measurement
                includeTotal useRawValue rest (acquired ++ [newItem])
                (logs ++ if printValid then ["Valid: " ++ counterPath] else [])
        else
          match q.addCounterToQuery counterPath with
          | .error e => (acquired, logs, some e)
          | .ok counterHandle =>
            let newItem := newCounter counterHandle counterPath computer
              objectName inst counterName measurement includeTotal useRawValue
            if inst = "_Total" ∧ origInstance = "*" ∧ includeTotal = false then
              addItemExpandLoop q localizeWildcardsExpansion printValid
                origObjectName origCounterName origInstance measurement
                includeTotal useRawValue rest acquired logs
            else
              addItemExpandLoop q localizeWildcardsExpansion printValid
                origObjectName origCounterName origInstance measurement
                includeTotal useRawValue rest (acquired ++ [newItem])
                (logs ++ if printValid then ["Valid: " ++ counterPath] else [])

/-- Registers one configured counter path (method AddItem in the
source): creates the host's registration state on first reference,
registers the path (preferring English names on Vista or newer), and
under wildcard expansion resolves the pattern into concrete per-instance
counters.  Mutations performed before an early return persist, as they
do on the Go receiver. -/
def AddItem (env : PdhEnv) (m : WinPerfCounters)
    (counterPath computer objectName inst counterName measurement : String)
    (includeTotal useRawValue : Bool) :
    WinPerfCounters × List String × Option GoError :=
  let origCounterPath := counterPath
  let (sourceTag, m) :=
    if computer = "localhost" then hostname env m else (computer, m)
  let q := env.newPerformanceQuery computer
  let preexisting := alookup m.hostCounters computer
  let hostCounter := (preexisting).getD ⟨computer, sourceTag, []⟩
  let m := { m with hostCounters := aset m.hostCounters computer hostCounter }
  match if preexisting.isNone then q.openResult else none with
  | some e => (m, [], some e)
  | none =>
    let addInitial :=
      if !q.isVistaOrNewer then q.addCounterToQuery counterPath
      else q.addEnglishCounterToQuery counterPath
    match addInitial with
    | .error e => (m, [], some e)
    | .ok counterHandle =>
      if m.useWildcardsExpansion then
        let origInstance := inst
        match q.getCounterPath counterHandle with
        | .error e => (m, [], some e)
        | .ok counterPath =>
          match q.expandWildCardPath counterPath with
          | .error e => (m, [], some e)
          | .ok counters =>
            match extractCounterInfoFromCounterPath origCounterPath with
            | .error msg => (m, [], some (errorNew msg))
            | .ok (_, origObjectName, _, origCounterName) =>
              let r := addItemExpandLoop q m.localizeWildcardsExpansion
                m.printValid origObjectName origCounterName origInstance
                measurement includeTotal useRawValue counters [] []
              let hostCounter := { hostCounter with counters := hostCounter.counters ++ r.1 }
              ({ m with hostCounters := aset m.hostCounters computer hostCounter },
               r.2.1, r.2.2)
      else
        let newItem := newCounter counterHandle counterPath computer objectName
          inst counterName measurement includeTotal useRawValue
        let hostCounter := { hostCounter with counters := hostCounter.counters ++ [newItem] }
        ({ m with hostCounters := aset m.hostCounters computer hostCounter },
         if m.printValid then ["Valid: " ++ counterPath] else [], none)

/-! ## ParseConfig -/

/-- Log line emitted when a registration fails on an object with
warnOnMissing or failOnMissing set. -/
def invalidPathLog (counterPath : String) (err : GoError) : String :=
  "Invalid counterPath " ++ counterPath ++ ": " ++ err.msg

/-- Innermost configuration loop, over the instance patterns of one
object, source and counter: builds the canonical path, registers it, and
on failure aborts when failOnMissing is set, logging when either missing
flag is set. -/
def parseInstLoop (env : PdhEnv) (po : PerfObject) (computer counterName : String) :
    WinPerfCounters → List String → List String →
      WinPerfCounters × List String × Option GoError
  | m, logs, [] => (m, logs, none)
  | m, logs, inst :: rest =>
    let objectName := po.objectName
    let counterPath := formatPath computer objectName inst counterName
    match AddItem env m counterPath computer objectName inst counterName
        po.measurement po.includeTotal po.useRawValues with
    | (m₁, logs₁, some err) =>
      let logs₂ := logs ++ logs₁ ++
        if po.failOnMissing || po.warnOnMissing then [invalidPathLog counterPath err] else []
      if po.failOnMissing then (m₁, logs₂, some err)
      else parseInstLoop env po computer counterName m₁ logs₂ rest
    | (m₁, logs₁, none) =>
      parseInstLoop env po computer counterName m₁ (logs ++ logs₁) rest

/-- Loop over the counters of one object and source; a missing-instances
warning is logged per counter. -/
def parseCounterLoop (env : PdhEnv) (po : PerfObject) (computer : String) :
    WinPerfCounters → List String → List String →
      WinPerfCounters × List String × Option GoError
  | m, logs, [] => (m, logs, none)
  | m, logs, counterName :: rest =>
    let logs := logs ++
      if po.instances = [] then ["Missing Instances param for object " ++ po.objectName] else []
    match parseInstLoop env po computer counterName m [] po.instances with
    | (m₁, logs₁, some err) => (m₁, logs ++ logs₁, some err)
    | (m₁, logs₁, none) => parseCounterLoop env po computer m₁ (logs ++ logs₁) rest

/-- Loop over the sources of one object; an empty source name stands for
the local host. -/
def parseComputerLoop (env : PdhEnv) (po : PerfObject) :
    WinPerfCounters → List String → List String →
      WinPerfCounters × List String × Option GoError
  | m, logs, [] => (m, logs, none)
  | m, logs, computer :: rest =>
    let computer := if computer = "" then "localhost" else computer
    match parseCounterLoop env po computer m [] po.counters with
    | (m₁, logs₁, some err) => (m₁, logs ++ logs₁, some err)
    | (m₁, logs₁, none) => parseComputerLoop env po m₁ (logs ++ logs₁) rest

/-- Loop over the configured objects; an object without sources falls
back to the engine-level source list. -/
def parseObjectLoop (env : PdhEnv) :
    WinPerfCounters → List String → List PerfObject →
      WinPerfCounters × List String × Option GoError
  | m, logs, [] => (m, logs, none)
  | m, logs, po :: rest =>
    let computers := if po.sources = [] then m.sources else po.sources
    match parseComputerLoop env po m [] computers with
    | (m₁, logs₁, some err) => (m₁, logs ++ logs₁, some err)
    | (m₁, logs₁, none) => parseObjectLoop env m₁ (logs ++ logs₁) rest

/-- Configuration parsing (method ParseConfig in the source): defaults
the source list to the local host, rejects an empty object list, and
registers every object, source, counter and instance combination. -/
def ParseConfig (env : PdhEnv) (m : WinPerfCounters) :
    WinPerfCounters × List String × Option GoError :=
  let m := if m.sources = [] then { m with sources := ["localhost"] } else m
  if m.object = [] then
    (m, [], some (errorNew "no performance objects configured"))
  else
    parseObjectLoop env m [] m.object

/-! ## Value extraction (gatherComputerCounters) -/

/-- Reads the sample of one counter through its own handle in expansion
mode; a raw read converts the unformatted integer to a numeric value
verbatim. -/
def readSingleValue (q : PerformanceQuery) (metric : Counter) : Except GoError Rat :=
  if metric.useRawValue then
    (q.getRawCounterValue metric.counterHandle).map fun i => (i : Rat)
  else
    q.getFormattedCounterValueDouble metric.counterHandle

/-- Reads the multi-instance array of one counter in non-expansion
mode. -/
def readArrayValues (q : PerformanceQuery) (metric : Counter) :
    Except GoError (List CounterValue) :=
  if metric.useRawValue then q.getRawCounterArray metric.counterHandle
  else q.getFormattedCounterArrayDouble metric.counterHandle

/-- Warning logged when a benign per-counter read failure skips one
metric. -/
def counterSkipWarn (metric : Counter) (e : GoError) : String :=
  "Error while getting value for counter " ++ metric.counterPath ++
    ", instance: " ++ metric.inst ++ ", will skip metric: " ++ e.msg

/-- Error aborting one host's extraction on a non-benign per-counter
read failure. -/
def counterAbortError (metric : Counter) (e : GoError) : GoError :=
  wrapErr ("error while getting value for counter " ++ metric.counterPath ++ ": ") e

/-- Accumulator update of the expansion branch: both inner maps are
ensured by lookups at their own level before the write. -/
def writeExpandedValue (acc : Accumulator) (metric : Counter) (value : Rat) :
    Accumulator :=
  let acc :=
    if (alookup acc metric.objectName).isNone then aset acc metric.objectName [] else acc
  let acc :=
    if (alookup2 acc metric.objectName metric.counter).isNone then
      accSetCounterMap acc metric.objectName metric.counter []
    else acc
  accSetValue acc metric.objectName metric.counter metric.inst value

/-- Processing of one array entry in the non-expansion branch: the
truncation correction replaces a prefix-truncated instance name with the
originally requested identifier; then the object map is ensured, the
counter map is re-made whenever the counter name is missing among the
top-level keys (the source checks acc[metric.counter], not
acc[metric.objectName][metric.counter]), and the entry is written when
the inclusion test passes. -/
def processCounterValue (metric : Counter) (acc : Accumulator)
    (cValue : CounterValue) : Accumulator :=
  let cValue :=
    if goContains metric.inst "#" && goStartsWith metric.inst cValue.instanceName then
      { cValue with instanceName := metric.inst }
    else cValue
  let acc :=
    if (alookup acc metric.objectName).isNone then aset acc metric.objectName [] else acc
  let acc :=
    if (alookup acc metric.counter).isNone then
      accSetCounterMap acc metric.objectName metric.counter []
    else acc
  if shouldIncludeMetric metric cValue then
    accSetValue acc metric.objectName metric.counter cValue.instanceName cValue.value
  else acc

/-- Loop over one host's registered counters (the body of method
gatherComputerCounters in the source): a benign read failure skips the
one counter with a warning, a non-benign one aborts the host's
extraction with an empty accumulator and a wrapped error. -/
def gatherLoop (q : PerformanceQuery) (useWildcardsExpansion : Bool) :
    Accumulator → List String → List Counter →
      Accumulator × List String × Option GoError
  | acc, logs, [] => (acc, logs, none)
  | acc, logs, metric :: rest =>
    if useWildcardsExpansion then
      match readSingleValue q metric with
      | .error e =>
        if isKnownCounterDataError e then
          gatherLoop q useWildcardsExpansion acc (logs ++ [counterSkipWarn metric e]) rest
        else ([], logs, some (counterAbortError metric e))
      | .ok value =>
        gatherLoop q useWildcardsExpansion (writeExpandedValue acc metric value) logs rest
    else
      match readArrayValues q metric with
      | .error e =>
        if isKnownCounterDataError e then
          gatherLoop q useWildcardsExpansion acc (logs ++ [counterSkipWarn metric e]) rest
        else ([], logs, some (counterAbortError metric e))
      | .ok counterValues =>
        gatherLoop q useWildcardsExpansion
          (counterValues.foldl (processCounterValue metric) acc) logs rest

/-- Extraction of one host's samples into its accumulator (method
gatherComputerCounters in the source). -/
def gatherComputerCounters (env : PdhEnv) (useWildcardsExpansion : Bool)
    (hostInfo : HostCountersInfo) : Accumulator × List String × Option GoError :=
  gatherLoop (env.newPerformanceQuery hostInfo.computer) useWildcardsExpansion
    [] [] hostInfo.counters

/-! ## Gather -/

/-- Closes every host query and clears the host map (method cleanQueries
in the source); a close failure leaves the map in place. -/
def cleanQueriesLoop (env : PdhEnv) :
    List (String × HostCountersInfo) → Option GoError
  | [] => none
  | (computer, _) :: rest =>
    match (env.newPerformanceQuery computer).closeResult with
    | some e => some e
    | none => cleanQueriesLoop env rest

/-- Method cleanQueries in the source. -/
def cleanQueries (env : PdhEnv) (m : WinPerfCounters) :
    WinPerfCounters × Option GoError :=
  match cleanQueriesLoop env m.hostCounters with
  | some e => (m, some e)
  | none => ({ m with hostCounters := [] }, none)

/-- One host's sampling step of the main Gather loop: with
usePerfCounterTime on a Vista-or-newer query the timestamped collection
is used, otherwise the plain one. -/
def sampleHost (env : PdhEnv) (usePerfCounterTime : Bool) (computer : String) :
    Option GoError :=
  let q := env.newPerformanceQuery computer
  if usePerfCounterTime && q.isVistaOrNewer then q.collectDataWithTime
  else q.collectData

/-- Sequential sampling loop over all hosts, stopping at the first
failure. -/
def sampleLoop (env : PdhEnv) (usePerfCounterTime : Bool) :
    List (String × HostCountersInfo) → Option GoError
  | [] => none
  | (computer, _) :: rest =>
    match sampleHost env usePerfCounterTime computer with
    | some e => some e
    | none => sampleLoop env usePerfCounterTime rest

/-- Throwaway sampling loop run once after configuration parsing,
because delta and rate counters need two samples; always the plain
collection. -/
def throwawayLoop (env : PdhEnv) :
    List (String × HostCountersInfo) → Option GoError
  | [] => none
  | (computer, _) :: rest =>
    match (env.newPerformanceQuery computer).collectData with
    | some e => some e
    | none => throwawayLoop env rest

/-- Per-host extraction fan-out: every host's contribution is computed
from its own host-private data and written under its own key; an
extraction error is only logged. -/
def extractAll (env : PdhEnv) (useWildcardsExpansion : Bool) :
    List (String × HostCountersInfo) → List (String × Accumulator) × List String
  | [] => ([], [])
  | (_, info) :: rest =>
    let r := gatherComputerCounters env useWildcardsExpansion info
    let rec2 := extractAll env useWildcardsExpansion rest
    ((info.computer, r.1) :: rec2.1,
     (match r.2.2 with
      | some e => ["error during collecting data on host " ++ info.computer ++ ": " ++ e.msg]
      | none => []) ++ rec2.2)

/-- Result of one Gather call: the engine state after the call, the
per-host accumulators, the log lines, the returned error, and whether
the call executed the refresh block (configuration parsing and query
setup). -/
structure GatherResult where
  state : WinPerfCounters
  acc : List (String × Accumulator)
  logs : List String
  err : Option GoError
  ranRefresh : Bool
deriving Repr

/-- Sampling-then-extraction part of Gather, run on every call: a
sampling failure on any host ends the call with an empty result map and
the classified error; extraction failures are only logged. -/
def gatherAfterRefresh (env : PdhEnv) (m : WinPerfCounters)
    (ranRefresh : Bool) (logs : List String) : GatherResult :=
  match sampleLoop env m.usePerfCounterTime m.hostCounters with
  | some e => ⟨m, [], logs, checkError m.ignoredErrors e, ranRefresh⟩
  | none =>
    let r := extractAll env m.useWildcardsExpansion m.hostCounters
    ⟨m, r.1, logs ++ r.2, none, ranRefresh⟩

/-- Method Gather in the source: when the lastRefreshed timestamp is
zero, closes stale queries, parses the configuration and performs the
throwaway sample per host before marking the engine refreshed; then, on
every call, samples all hosts sequentially and fans extraction out per
host. -/
def Gather (env : PdhEnv) (m : WinPerfCounters) : GatherResult :=
  if m.lastRefreshedZero then
    match cleanQueries env m with
    | (m₁, some e) => ⟨m₁, [], [], some e, true⟩
    | (m₁, none) =>
      match ParseConfig env m₁ with
      | (m₂, logs, some e) => ⟨m₂, [], logs, some e, true⟩
      | (m₂, logs, none) =>
        match throwawayLoop env m₂.hostCounters with
        | some e => ⟨m₂, [], logs, checkError m₂.ignoredErrors e, true⟩
        | none =>
          gatherAfterRefresh env { m₂ with lastRefreshedZero := false } true logs
  else
    gatherAfterRefresh env m false []

/-! ## Concrete model instances used to evaluate the definitions -/

/-- A native query on which every operation succeeds: registration
returns the path itself as handle, expansion returns the path unchanged,
reads return fixed values and a fixed two-entry array. -/
def allOkQuery : PerformanceQuery where
  isVistaOrNewer := true
  openResult := none
  addCounterToQuery := fun p => .ok p
  addEnglishCounterToQuery := fun p => .ok p
  getCounterPath := fun p => .ok p
  expandWildCardPath := fun p => .ok [p]
  collectData := none
  collectDataWithTime := none
  closeResult := none
  getRawCounterValue := fun _ => .ok 7
  getFormattedCounterValueDouble := fun _ => .ok 5
  getRawCounterArray := fun _ => .ok [⟨"i1", 1⟩, ⟨"i2", 2⟩]
  getFormattedCounterArrayDouble := fun _ => .ok [⟨"i1", 1⟩, ⟨"i2", 2⟩]

/-- Environment in which every host answers with allOkQuery. -/
def envAllOk : PdhEnv := ⟨fun _ => allOkQuery, some "myhost"⟩

/-- An error wrapping a native code from the benign set. -/
def benignErr : GoError := ⟨"benign", some PdhInvalidData⟩

/-- An error wrapping an unlisted native code. -/
def strangePdhErr : GoError := ⟨"strange", some 12345⟩

/-- An error that wraps no native PdhError at all. -/
def genericErr : GoError := ⟨"boom", none⟩

/-- A registered counter reading a raw multi-instance array under object
O and counter C with the wildcard instance pattern and includeTotal
set. -/
def c9Metric : Counter :=
  ⟨"\\O(*)\\C", "localhost", "O", "C", "*", "", true, true, "\\O(*)\\C"⟩

/-- The single counter the expansion loop of the c1 witness acquires. -/
def c1Entry : Counter :=
  ⟨"\\O(0)\\C", "", "O", "C", "0", "", false, true, "\\O(0)\\C"⟩

/-- A registered counter whose requested instance pattern carries a
multi-instance identifier suffix. -/
def c4Metric : Counter :=
  ⟨"\\O(w3wp#1)\\C", "localhost", "O", "C", "w3wp#1", "", false, false,
    "\\O(w3wp#1)\\C"⟩

/-- A query whose raw multi-instance array read fails with a benign
native code. -/
def arrFailQuery : PerformanceQuery :=
  { allOkQuery with getRawCounterArray := fun _ => .error benignErr }

/-- A sampling error carrying the no-data native code. -/
def noDataErr : GoError := ⟨"no data", some PdhNoData⟩

/-- A query whose sampling fails with the no-data code. -/
def sampleFailQuery : PerformanceQuery :=
  { allOkQuery with collectData := some noDataErr }

/-- Environment in which every host's sampling fails. -/
def envSampleFail : PdhEnv := ⟨fun _ => sampleFailQuery, some "myhost"⟩

/-- Host registration state with no counters. -/
def c5Info : HostCountersInfo := ⟨"localhost", "myhost", []⟩

/-- An already-configured engine whose ignore list holds the no-data
symbolic name. -/
def c5Engine : WinPerfCounters :=
  ⟨false, false, [], false, true, ["PDH_NO_DATA"], ["localhost"], false,
    [("localhost", c5Info)], "myhost"⟩

/-- A query whose raw multi-instance array read fails with an unlisted
native code. -/
def extractFailQuery : PerformanceQuery :=
  { allOkQuery with getRawCounterArray := fun _ => .error strangePdhErr }

/-- Environment in which every host's extraction fails non-benignly. -/
def envExtractFail : PdhEnv := ⟨fun _ => extractFailQuery, some "myhost"⟩

/-- Host registration state holding one registered counter. -/
def c10Info : HostCountersInfo := ⟨"localhost", "myhost", [c9Metric]⟩

/-- An already-configured engine with one host and one counter. -/
def c10Engine : WinPerfCounters :=
  ⟨false, false, [], false, true, [], ["localhost"], false,
    [("localhost", c10Info)], "myhost"⟩

/-- A configured object with one counter and the wildcard instance. -/
def c7Object : PerfObject := ⟨[], "O", ["C"], ["*"], "", false, false, false, true⟩

/-- A freshly constructed engine that has not been refreshed yet. -/
def c7Engine : WinPerfCounters :=
  ⟨false, false, [c7Object], false, true, [], [], true, [], ""⟩

/-- A query whose English-name registration fails with an unlisted
native code. -/
def addFailQuery : PerformanceQuery :=
  { allOkQuery with addEnglishCounterToQuery := fun _ => .error strangePdhErr }

/-- Environment in which every registration fails. -/
def envAddFail : PdhEnv := ⟨fun _ => addFailQuery, some "myhost"⟩

/-- A configured object with failOnMissing set. -/
def c8Object : PerfObject := ⟨[], "O", ["C"], ["*"], "", false, true, false, true⟩

/-- A freshly constructed engine carrying c8Object. -/
def c8Engine : WinPerfCounters :=
  ⟨false, false, [c8Object], false, true, [], [], true, [], ""⟩

/-- The engine state after the failed registration of the c8 witness:
the host entry was created before the registration failed. -/
def c8EngineAfter : WinPerfCounters :=
  ⟨false, false, [c8Object], false, true, [], [], true,
    [("localhost", ⟨"localhost", "myhost", []⟩)], "myhost"⟩

/-! ## Association-list and string lemmas -/

theorem alookup_aset_self {β : Type} (l : List (String × β)) (k : String) (v : β) :
    alookup (aset l k v) k = some v := by
  induction l with
  | nil => simp [aset, alookup]
  | cons p rest ih =>
    obtain ⟨k₁, w⟩ := p
    by_cases h : k₁ = k
    · simp [aset, h, alookup]
    · simp [aset, h, alookup, ih]

theorem alookup_aset_ne {β : Type} (l : List (String × β)) (k k₁ : String) (v : β)
    (h : k ≠ k₁) : alookup (aset l k v) k₁ = alookup l k₁ := by
  induction l with
  | nil => simp [aset, alookup, h]
  | cons p rest ih =>
    obtain ⟨k₂, w⟩ := p
    by_cases h₂ : k₂ = k
    · subst h₂; simp [aset, alookup, h]
    · simp [aset, h₂, alookup, ih]

theorem startsWithL_refl (l : List Char) : startsWithL l l = true := by
  induction l with
  | nil => rfl
  | cons c rest ih => simp [startsWithL, ih]

theorem goStartsWith_refl (s : String) : goStartsWith s s = true :=
  startsWithL_refl s.data

/-! ## Wildcard expansion: total exclusion (C1) -/

/-- Invariant of the expansion loop over any starting accumulation: with
the wildcard pattern and includeTotal unset every acquired counter
beyond the starting ones has an instance other than the total instance,
and with includeTotal set the acquired instances are exactly the parsed
instances of the expanded paths. -/
theorem addItemExpandLoop_instances (q : PerformanceQuery) (localize printValid : Bool)
    (oO oC measurement : String) (inclTotal uRV : Bool) :
    ∀ (paths : List String) (acquired counters : List Counter) (logs logsOut : List String),
      addItemExpandLoop q localize printValid oO oC "*" measurement inclTotal uRV
          paths acquired logs = (counters, logsOut, none) →
      (inclTotal = false → ∀ c ∈ counters, c ∈ acquired ∨ c.inst ≠ "_Total") ∧
      (inclTotal = true → counters.map (fun c => c.inst) =
        acquired.map (fun c => c.inst) ++
          paths.filterMap (fun p =>
            (extractCounterInfoFromCounterPath p).toOption.map (fun r => r.2.2.1))) := by
  intro paths
  induction paths with
  | nil =>
    intro acquired counters logs logsOut h
    simp only [addItemExpandLoop, Prod.mk.injEq] at h
    obtain ⟨rfl, rfl, -⟩ := h
    constructor
    · intro _ c hc; exact Or.inl hc
    · intro _; simp
  | cons p rest ih =>
    intro acquired counters logs logsOut h
    simp only [addItemExpandLoop] at h
    cases hadd : q.addCounterToQuery p with
    | error e => rw [hadd] at h; simp at h
    | ok hdl =>
      rw [hadd] at h
      cases hext : extractCounterInfoFromCounterPath p with
      | error msg => rw [hext] at h; simp at h
      | ok r =>
        rw [hext] at h
        obtain ⟨computer, objectName, inst, counterName⟩ := r
        have keySkip : inclTotal = false → inst = "_Total" →
            ∀ logs₂, addItemExpandLoop q localize printValid oO oC "*" measurement
              inclTotal uRV rest acquired logs₂ = (counters, logsOut, none) →
            (inclTotal = false → ∀ c ∈ counters, c ∈ acquired ∨ c.inst ≠ "_Total") ∧
            (inclTotal = true → counters.map (fun c => c.inst) =
              acquired.map (fun c => c.inst) ++
                (p :: rest).filterMap (fun p =>
                  (extractCounterInfoFromCounterPath p).toOption.map (fun r => r.2.2.1))) := by
          intro hF _ logs₂ hrec
          refine ⟨fun _ => (ih _ _ _ _ hrec).1 hF, fun htru => absurd htru (by simp [hF])⟩
        have keyNoSkip : ∀ newItem : Counter, newItem.inst = inst →
            (inclTotal = false → inst ≠ "_Total") →
            ∀ logs₂, addItemExpandLoop q localize printValid oO oC "*" measurement
              inclTotal uRV rest (acquired ++ [newItem]) logs₂ = (counters, logsOut, none) →
            (inclTotal = false → ∀ c ∈ counters, c ∈ acquired ∨ c.inst ≠ "_Total") ∧
            (inclTotal = true → counters.map (fun c => c.inst) =
              acquired.map (fun c => c.inst) ++
                (p :: rest).filterMap (fun p =>
                  (extractCounterInfoFromCounterPath p).toOption.map (fun r => r.2.2.1))) := by
          intro newItem hni hnt logs₂ hrec
          have hih := ih _ _ _ _ hrec
          constructor
          · intro hF c hc
            rcases hih.1 hF c hc with hmem | hne
            · rcases List.mem_append.mp hmem with h1 | h2
              · exact Or.inl h1
              · have hc2 : c = newItem := by simpa using h2
                subst hc2
                exact Or.inr (by rw [hni]; exact hnt hF)
            · exact Or.inr hne
          · intro htru
            rw [hih.2 htru]
            simp [List.filterMap_cons, hext, hni, Except.toOption]
        cases localize with
        | false =>
          simp only [Bool.not_false, if_true] at h
          cases haddE : q.addEnglishCounterToQuery
              (formatPath computer oO (if inst = "" then emptyInstance else inst) oC) with
          | error e => rw [haddE] at h; simp at h
          | ok ch =>
            rw [haddE] at h
            simp only [true_and] at h
            by_cases hskip : inst = "_Total" ∧ inclTotal = false
            · rw [if_pos hskip] at h
              exact keySkip hskip.2 hskip.1 _ h
            · rw [if_neg hskip] at h
              refine keyNoSkip _ rfl (fun hF hT => hskip ⟨hT, hF⟩) _ h
        | true =>
          simp only [Bool.not_true, if_false, true_and] at h
          by_cases hskip : inst = "_Total" ∧ inclTotal = false
          · rw [if_pos hskip] at h
            exact keySkip hskip.2 hskip.1 _ h
          · rw [if_neg hskip] at h
            refine keyNoSkip _ rfl (fun hF hT => hskip ⟨hT, hF⟩) _ h

/-- C1 (amended): for a wildcard registration whose original instance
pattern is exactly the star pattern and whose expansion loop succeeds,
with includeTotal unset the counters appended to the host's list contain
no counter whose instance name is exactly the total instance (instances
merely containing the total marker as a proper substring are retained),
and with includeTotal set every expanded instance, the total instance
included, is retained. -/
theorem addItem_wildcard_total_exclusion (q : PerformanceQuery)
    (localize printValid : Bool) (origObjectName origCounterName measurement : String)
    (includeTotal useRawValue : Bool) (paths : List String)
    (counters : List Counter) (logsOut : List String)
    (h : addItemExpandLoop q localize printValid origObjectName origCounterName "*"
        measurement includeTotal useRawValue paths [] [] = (counters, logsOut, none)) :
    (includeTotal = false → ∀ c ∈ counters, c.inst ≠ "_Total") ∧
    (includeTotal = true → counters.map (fun c => c.inst) =
      paths.filterMap (fun p =>
        (extractCounterInfoFromCounterPath p).toOption.map (fun r => r.2.2.1))) := by
  have hmain := addItemExpandLoop_instances q localize printValid origObjectName
    origCounterName measurement includeTotal useRawValue paths [] counters [] logsOut h
  constructor
  · intro hF c hc
    rcases hmain.1 hF c hc with hmem | hne
    · simp at hmem
    · exact hne
  · intro hT; simpa using hmain.2 hT

/-- C1 counterexample: with instance pattern star and includeTotal
unset, an expanded instance that merely contains the total marker is
appended to the host's counters, so the expansion does not exclude every
instance containing the marker. -/
theorem addItem_total_substring_retained :
    ((addItemExpandLoop allOkQuery true false "O" "C" "*" "" false true
        ["\\O(x_Total)\\C"] [] []).1.map fun c => goContains c.inst "_Total") = [true] ∧
    (addItemExpandLoop allOkQuery true false "O" "C" "*" "" false true
        ["\\O(x_Total)\\C"] [] []).2.2 = none := by decide

/-- Witness instantiating the amended C1 theorem on a concrete
expansion of the star pattern. -/
theorem addItem_wildcard_total_exclusion_witness :
    (false = false → ∀ c ∈ [c1Entry], c.inst ≠ "_Total") ∧
    (false = true → [c1Entry].map (fun c => c.inst) =
      ["\\O(_Total)\\C", "\\O(0)\\C"].filterMap (fun p =>
        (extractCounterInfoFromCounterPath p).toOption.map (fun r => r.2.2.1))) :=
  addItem_wildcard_total_exclusion allOkQuery true false "O" "C" "" false true
    ["\\O(_Total)\\C", "\\O(0)\\C"] [c1Entry] [] (by decide)

/-! ## Inclusion test (C3) and truncation correction (C4) -/

/-- C3: the inclusion test of the non-expansion mode accepts an array
entry exactly when includeTotal is set, or the requested instance is the
star pattern and the entry's name does not contain the total marker, or
the entry's name equals the requested instance, or the requested
instance is the no-instance sentinel. -/
theorem shouldIncludeMetric_characterization (metric : Counter) (cValue : CounterValue) :
    shouldIncludeMetric metric cValue = true ↔
      (metric.includeTotal = true ∨
       (metric.inst = "*" ∧ goContains cValue.instanceName "_Total" = false) ∨
       metric.inst = cValue.instanceName ∨
       metric.inst = emptyInstance) := by
  unfold shouldIncludeMetric
  split_ifs with h1 h2 h3 h4 <;>
    simp_all [Bool.and_eq_true, beq_iff_eq, Bool.not_eq_true']

/-- C4: in non-expansion mode, when the originally requested instance
pattern contains the multi-instance marker and the array entry's
instance name is a prefix of it, the entry is recorded under the full
originally requested identifier, and processing the entry is the same as
processing it with the full identifier in place of the truncated
name. -/
theorem processCounterValue_truncation_correction (metric : Counter)
    (acc : Accumulator) (cValue : CounterValue)
    (h1 : goContains metric.inst "#" = true)
    (h2 : goStartsWith metric.inst cValue.instanceName = true) :
    alookup3 (processCounterValue metric acc cValue) metric.objectName
        metric.counter metric.inst = some cValue.value ∧
    processCounterValue metric acc cValue
      = processCounterValue metric acc { cValue with instanceName := metric.inst } := by
  have hinc : shouldIncludeMetric metric ⟨metric.inst, cValue.value⟩ = true := by
    unfold shouldIncludeMetric; split_ifs <;> simp_all
  constructor
  · unfold processCounterValue
    simp only [h1, h2, Bool.and_self, if_true]
    simp [hinc, alookup3, alookup2, accSetValue, alookup_aset_self]
  · unfold processCounterValue
    simp [h1, h2, goStartsWith_refl]

/-- Witness instantiating the C4 theorem on a truncated worker-process
identifier. -/
theorem processCounterValue_truncation_correction_witness :
    alookup3 (processCounterValue c4Metric [] ⟨"w3", 42⟩) c4Metric.objectName
        c4Metric.counter c4Metric.inst = some (42 : Rat) ∧
    processCounterValue c4Metric [] ⟨"w3", 42⟩
      = processCounterValue c4Metric []
          { CounterValue.mk "w3" 42 with instanceName := c4Metric.inst } :=
  processCounterValue_truncation_correction c4Metric [] ⟨"w3", 42⟩
    (by decide) (by decide)

/-! ## Non-expansion accumulation discards earlier entries (C9) -/

/-- C9 refutation: both array entries pass the inclusion test, yet after
the loop over one registered counter the first entry is absent from the
accumulator, because the counter map is re-made on the second entry (the
source tests acc at the counter name among the object-level keys). -/
theorem gatherLoop_discards_earlier_entry :
    shouldIncludeMetric c9Metric ⟨"i1", 1⟩ = true ∧
    shouldIncludeMetric c9Metric ⟨"i2", 2⟩ = true ∧
    gatherLoop allOkQuery false [] [] [c9Metric] =
      ([("O", [("C", [("i2", 2)])])], [], none) ∧
    alookup3 (gatherLoop allOkQuery false [] [] [c9Metric]).1 "O" "C" "i1" = none :=
  ⟨rfl, rfl, rfl, rfl⟩

/-! ## Sampling and extraction failure policy (C5, C6, C10) -/

/-- Sequential sampling stops at the first host whose sample fails,
returning that host's error. -/
theorem sampleLoop_firstError (env : PdhEnv) (upct : Bool)
    (post : List (String × HostCountersInfo)) (computer : String)
    (info : HostCountersInfo) (e : GoError) :
    ∀ pre : List (String × HostCountersInfo),
      (∀ p ∈ pre, sampleHost env upct p.1 = none) →
      sampleHost env upct computer = some e →
      sampleLoop env upct (pre ++ (computer, info) :: post) = some e := by
  intro pre
  induction pre with
  | nil => intro _ hfail; simp [sampleLoop, hfail]
  | cons p rest ih =>
    intro hpre hfail
    obtain ⟨pc, pi⟩ := p
    have hp : sampleHost env upct pc = none := hpre (pc, pi) (by simp)
    simp only [List.cons_append, sampleLoop, hp]
    exact ih (fun q hq => hpre q (by simp [hq])) hfail

/-- C5: when sampling fails on a host during a Gather call, the call
returns an empty result map together with the error classified by
checkError; the classified error is nil exactly when the failure wraps a
native PdhError whose symbolic name appears in the configured
IgnoredErrors list, so a non-PdhError sampling failure is never
ignored. -/
theorem Gather_sampling_failure_policy (env : PdhEnv) (m : WinPerfCounters)
    (pre post : List (String × HostCountersInfo)) (computer : String)
    (info : HostCountersInfo) (e : GoError)
    (hzero : m.lastRefreshedZero = false)
    (hhosts : m.hostCounters = pre ++ (computer, info) :: post)
    (hpre : ∀ p ∈ pre, sampleHost env m.usePerfCounterTime p.1 = none)
    (hfail : sampleHost env m.usePerfCounterTime computer = some e) :
    (Gather env m).acc = [] ∧
    (Gather env m).err = checkError m.ignoredErrors e ∧
    (checkError m.ignoredErrors e = none ↔
       ∃ c, e.pdhCode = some c ∧ PDHErrors c ∈ m.ignoredErrors) := by
  have hs : sampleLoop env m.usePerfCounterTime m.hostCounters = some e := by
    rw [hhosts]; exact sampleLoop_firstError env _ post computer info e pre hpre hfail
  have hG : Gather env m = gatherAfterRefresh env m false [] := by
    simp [Gather, hzero]
  rw [hG]
  refine ⟨by simp [gatherAfterRefresh, hs], by simp [gatherAfterRefresh, hs], ?_⟩
  obtain ⟨msg, pc⟩ := e
  cases pc with
  | none => simp [checkError]
  | some c =>
    have hiff : (m.ignoredErrors.contains (PDHErrors c) = true) ↔
        PDHErrors c ∈ m.ignoredErrors :=
      ⟨fun h2 => List.elem_iff.mp h2, fun h2 => List.elem_iff.mpr h2⟩
    by_cases hc : m.ignoredErrors.contains (PDHErrors c)
    · simp only [checkError, hc, if_true]
      exact ⟨fun _ => ⟨c, rfl, hiff.mp hc⟩, fun _ => trivial⟩
    · simp only [checkError, hc, if_false, Bool.false_eq_true]
      constructor
      · intro h2; cases h2
      · rintro ⟨c2, hc2, hmem⟩
        cases hc2
        exact absurd (hiff.mpr hmem) hc

/-- C6: a per-counter value-read failure is classified benign exactly
when it wraps a native PdhError whose code is one of the five fixed
codes; a benign failure skips that counter with a warning and extraction
continues (the ignore-list configuration plays no part), a non-benign
failure aborts the host's extraction with an empty accumulator and a
wrapped error, and every host's extraction result is computed from that
host's own data alone. -/
theorem gatherLoop_benign_error_policy (q : PerformanceQuery) (useExp : Bool)
    (acc : Accumulator) (logs : List String) (metric : Counter)
    (rest : List Counter) (e : GoError)
    (hread : (useExp = true ∧ readSingleValue q metric = .error e) ∨
             (useExp = false ∧ readArrayValues q metric = .error e)) :
    (isKnownCounterDataError e = true ↔
       ∃ c, e.pdhCode = some c ∧
         (c = PdhInvalidData ∨ c = PdhCalcNegativeDenominator ∨
          c = PdhCalcNegativeValue ∨ c = PdhCstatusInvalidData ∨ c = PdhNoData)) ∧
    (isKnownCounterDataError e = true →
       gatherLoop q useExp acc logs (metric :: rest) =
         gatherLoop q useExp acc (logs ++ [counterSkipWarn metric e]) rest) ∧
    (isKnownCounterDataError e = false →
       gatherLoop q useExp acc logs (metric :: rest) =
         ([], logs, some (counterAbortError metric e))) ∧
    (∀ (env : PdhEnv) (useExp₂ : Bool) (hosts : List (String × HostCountersInfo)),
       (extractAll env useExp₂ hosts).1 =
         hosts.map fun p => (p.2.computer, (gatherComputerCounters env useExp₂ p.2).1)) := by
  refine ⟨?_, ?_, ?_, ?_⟩
  · obtain ⟨msg, pc⟩ := e
    cases pc with
    | none => simp [isKnownCounterDataError]
    | some c =>
      simp [isKnownCounterDataError]
      tauto
  · intro hben
    rcases hread with ⟨rfl, hr⟩ | ⟨rfl, hr⟩ <;> simp [gatherLoop, hr, hben]
  · intro hben
    rcases hread with ⟨rfl, hr⟩ | ⟨rfl, hr⟩ <;> simp [gatherLoop, hr, hben]
  · intro env useExp₂ hosts
    induction hosts with
    | nil => rfl
    | cons p rest₂ ih => simp [extractAll, ih]

/-- An aborted counter loop leaves an empty accumulator. -/
theorem gatherLoop_error_acc (q : PerformanceQuery) (useExp : Bool) :
    ∀ (counters : List Counter) (acc : Accumulator) (logs : List String),
      (gatherLoop q useExp acc logs counters).2.2 ≠ none →
      (gatherLoop q useExp acc logs counters).1 = [] := by
  intro counters
  induction counters with
  | nil => intro acc logs h; simp [gatherLoop] at h
  | cons metric rest ih =>
    intro acc logs h
    by_cases hexp : useExp
    · subst hexp
      simp only [gatherLoop, if_true] at h ⊢
      cases hr : readSingleValue q metric with
      | error e =>
        rw [hr] at h
        by_cases hb : isKnownCounterDataError e
        · simp only [hr, hb, if_true] at h ⊢
          exact ih _ _ h
        · simp [hr, hb]
      | ok v =>
        simp only [hr] at h ⊢
        exact ih _ _ h
    · simp only [gatherLoop, if_neg hexp] at h ⊢
      cases hr : readArrayValues q metric with
      | error e =>
        rw [hr] at h
        by_cases hb : isKnownCounterDataError e
        · simp only [hr, hb, if_true] at h ⊢
          exact ih _ _ h
        · simp [hr, hb]
      | ok vs =>
        simp only [hr] at h ⊢
        exact ih _ _ h

/-- The extraction fan-out binds every host's key to the accumulator of
that host's own extraction. -/
theorem extractAll_acc_map (env : PdhEnv) (useExp : Bool) :
    ∀ hosts : List (String × HostCountersInfo),
      (extractAll env useExp hosts).1 =
        hosts.map fun p => (p.2.computer, (gatherComputerCounters env useExp p.2).1) := by
  intro hosts
  induction hosts with
  | nil => rfl
  | cons p rest ih => simp [extractAll, ih]

/-- An extraction failure of one host is logged by the fan-out. -/
theorem extractAll_logs_mem (env : PdhEnv) (useExp : Bool)
    (computer : String) (info : HostCountersInfo) (e : GoError) :
    ∀ hosts : List (String × HostCountersInfo),
      (computer, info) ∈ hosts →
      (gatherComputerCounters env useExp info).2.2 = some e →
      ("error during collecting data on host " ++ info.computer ++ ": " ++ e.msg)
        ∈ (extractAll env useExp hosts).2 := by
  intro hosts
  induction hosts with
  | nil => intro h _; cases h
  | cons p rest ih =>
    intro hmem hfail
    rcases List.mem_cons.mp hmem with heq | htail
    · subst heq
      simp [extractAll, hfail]
    · obtain ⟨pc, pi⟩ := p
      simp only [extractAll, List.mem_append]
      exact Or.inr (ih htail hfail)

/-- A failed host extraction returns the empty accumulator. -/
theorem gatherComputerCounters_error_acc (env : PdhEnv) (useExp : Bool)
    (info : HostCountersInfo)
    (h : (gatherComputerCounters env useExp info).2.2 ≠ none) :
    (gatherComputerCounters env useExp info).1 = [] :=
  gatherLoop_error_acc (env.newPerformanceQuery info.computer) useExp
    info.counters [] [] h

/-- C10: when one host's extraction fails non-benignly while sampling
succeeded, Gather still returns a nil error (the failure is only
logged), the failed host's key is present in the returned map bound to
an empty accumulator, and every host's entry is its own extraction
result, so other hosts are unaffected. -/
theorem Gather_extraction_failure_logged (env : PdhEnv) (m : WinPerfCounters)
    (computer : String) (info : HostCountersInfo) (e : GoError)
    (hzero : m.lastRefreshedZero = false)
    (hsample : sampleLoop env m.usePerfCounterTime m.hostCounters = none)
    (hmem : (computer, info) ∈ m.hostCounters)
    (hfail : (gatherComputerCounters env m.useWildcardsExpansion info).2.2 = some e) :
    (Gather env m).err = none ∧
    (Gather env m).acc = m.hostCounters.map
      (fun p => (p.2.computer, (gatherComputerCounters env m.useWildcardsExpansion p.2).1)) ∧
    (info.computer, ([] : Accumulator)) ∈ (Gather env m).acc ∧
    ("error during collecting data on host " ++ info.computer ++ ": " ++ e.msg)
      ∈ (Gather env m).logs := by
  have hG : Gather env m = gatherAfterRefresh env m false [] := by
    simp [Gather, hzero]
  rw [hG]
  have hacc0 : (gatherComputerCounters env m.useWildcardsExpansion info).1 = [] :=
    gatherComputerCounters_error_acc env _ info (by simp [hfail])
  refine ⟨by simp [gatherAfterRefresh, hsample], ?_, ?_, ?_⟩
  · simp [gatherAfterRefresh, hsample, extractAll_acc_map]
  · simp only [gatherAfterRefresh, hsample]
    rw [extractAll_acc_map]
    exact List.mem_map.mpr ⟨(computer, info), hmem, by simp [hacc0]⟩
  · simp only [gatherAfterRefresh, hsample, List.nil_append]
    exact extractAll_logs_mem env m.useWildcardsExpansion computer info e
      m.hostCounters hmem hfail

/-! ## Refresh lifecycle (C7) and configuration parsing policy (C8) -/

/-- Registration never touches the refresh timestamp. -/
theorem AddItem_lastRefreshed (env : PdhEnv) (m : WinPerfCounters)
    (cp co o i cn me : String) (it ur : Bool) :
    ((AddItem env m cp co o i cn me it ur).1).lastRefreshedZero
      = m.lastRefreshedZero := by
  simp only [AddItem, hostname]
  repeat' split
  all_goals rfl

/-- The instance loop never touches the refresh timestamp. -/
theorem parseInstLoop_lastRefreshed (env : PdhEnv) (po : PerfObject)
    (computer counterName : String) :
    ∀ (insts : List String) (m : WinPerfCounters) (logs : List String),
      ((parseInstLoop env po computer counterName m logs insts).1).lastRefreshedZero
        = m.lastRefreshedZero := by
  intro insts
  induction insts with
  | nil => intro m logs; rfl
  | cons inst rest ih =>
    intro m logs
    simp only [parseInstLoop]
    rcases hA : AddItem env m (formatPath computer po.objectName inst counterName)
        computer po.objectName inst counterName po.measurement po.includeTotal
        po.useRawValues with ⟨m₁, logs₁, oe⟩
    have hA1 : m₁.lastRefreshedZero = m.lastRefreshedZero := by
      have := AddItem_lastRefreshed env m
        (formatPath computer po.objectName inst counterName) computer po.objectName
        inst counterName po.measurement po.includeTotal po.useRawValues
      rw [hA] at this; exact this
    cases oe with
    | some e =>
      by_cases hf : po.failOnMissing <;> simp [hf, ih, hA1]
    | none => simp [ih, hA1]

/-- The counter loop never touches the refresh timestamp. -/
theorem parseCounterLoop_lastRefreshed (env : PdhEnv) (po : PerfObject)
    (computer : String) :
    ∀ (ctrs : List String) (m : WinPerfCounters) (logs : List String),
      ((parseCounterLoop env po computer m logs ctrs).1).lastRefreshedZero
        = m.lastRefreshedZero := by
  intro ctrs
  induction ctrs with
  | nil => intro m logs; rfl
  | cons ctr rest ih =>
    intro m logs
    simp only [parseCounterLoop]
    rcases hI : parseInstLoop env po computer ctr m [] po.instances with ⟨m₁, logs₁, oe⟩
    have hI1 : m₁.lastRefreshedZero = m.lastRefreshedZero := by
      have := parseInstLoop_lastRefreshed env po computer ctr po.instances m []
      rw [hI] at this; exact this
    cases oe with
    | some e => simp [hI1]
    | none => simp [ih, hI1]

/-- The source loop never touches the refresh timestamp. -/
theorem parseComputerLoop_lastRefreshed (env : PdhEnv) (po : PerfObject) :
    ∀ (computers : List String) (m : WinPerfCounters) (logs : List String),
      ((parseComputerLoop env po m logs computers).1).lastRefreshedZero
        = m.lastRefreshedZero := by
  intro computers
  induction computers with
  | nil => intro m logs; rfl
  | cons computer rest ih =>
    intro m logs
    simp only [parseComputerLoop]
    rcases hC : parseCounterLoop env po (if computer = "" then "localhost" else computer)
        m [] po.counters with ⟨m₁, logs₁, oe⟩
    have hC1 : m₁.lastRefreshedZero = m.lastRefreshedZero := by
      have := parseCounterLoop_lastRefreshed env po
        (if computer = "" then "localhost" else computer) po.counters m []
      rw [hC] at this; exact this
    cases oe with
    | some e => simp [hC1]
    | none => simp [ih, hC1]

/-- The object loop never touches the refresh timestamp. -/
theorem parseObjectLoop_lastRefreshed (env : PdhEnv) :
    ∀ (objs : List PerfObject) (m : WinPerfCounters) (logs : List String),
      ((parseObjectLoop env m logs objs).1).lastRefreshedZero
        = m.lastRefreshedZero := by
  intro objs
  induction objs with
  | nil => intro m logs; rfl
  | cons po rest ih =>
    intro m logs
    simp only [parseObjectLoop]
    rcases hO : parseComputerLoop env po m []
        (if po.sources = [] then m.sources else po.sources) with ⟨m₁, logs₁, oe⟩
    have hO1 : m₁.lastRefreshedZero = m.lastRefreshedZero := by
      have := parseComputerLoop_lastRefreshed env po
        (if po.sources = [] then m.sources else po.sources) m []
      rw [hO] at this; exact this
    cases oe with
    | some e => simp [hO1]
    | none => simp [ih, hO1]

/-- Configuration parsing never touches the refresh timestamp. -/
theorem ParseConfig_lastRefreshed (env : PdhEnv) (m : WinPerfCounters) :
    ((ParseConfig env m).1).lastRefreshedZero = m.lastRefreshedZero := by
  unfold ParseConfig
  by_cases hs : m.sources = [] <;> by_cases ho : m.object = [] <;>
    simp [hs, ho, parseObjectLoop_lastRefreshed]

/-- Query cleanup never touches the refresh timestamp. -/
theorem cleanQueries_lastRefreshed (env : PdhEnv) (m : WinPerfCounters) :
    ((cleanQueries env m).1).lastRefreshedZero = m.lastRefreshedZero := by
  unfold cleanQueries
  cases cleanQueriesLoop env m.hostCounters <;> rfl

/-- The sampling-and-extraction phase returns the engine state
unchanged. -/
theorem gatherAfterRefresh_state (env : PdhEnv) (m : WinPerfCounters)
    (r : Bool) (l : List String) : (gatherAfterRefresh env m r l).state = m := by
  unfold gatherAfterRefresh
  cases sampleLoop env m.usePerfCounterTime m.hostCounters <;> rfl

/-- The sampling-and-extraction phase reports the refresh flag it was
given. -/
theorem gatherAfterRefresh_ranRefresh (env : PdhEnv) (m : WinPerfCounters)
    (r : Bool) (l : List String) : (gatherAfterRefresh env m r l).ranRefresh = r := by
  unfold gatherAfterRefresh
  cases sampleLoop env m.usePerfCounterTime m.hostCounters <;> rfl

/-- The result map of the sampling-and-extraction phase does not depend
on the carried refresh flag or logs. -/
theorem gatherAfterRefresh_acc_congr (env : PdhEnv) (m : WinPerfCounters)
    (r₁ r₂ : Bool) (l₁ l₂ : List String) :
    (gatherAfterRefresh env m r₁ l₁).acc = (gatherAfterRefresh env m r₂ l₂).acc := by
  unfold gatherAfterRefresh
  cases sampleLoop env m.usePerfCounterTime m.hostCounters <;> rfl

/-- The returned error of the sampling-and-extraction phase does not
depend on the carried refresh flag or logs. -/
theorem gatherAfterRefresh_err_congr (env : PdhEnv) (m : WinPerfCounters)
    (r₁ r₂ : Bool) (l₁ l₂ : List String) :
    (gatherAfterRefresh env m r₁ l₁).err = (gatherAfterRefresh env m r₂ l₂).err := by
  unfold gatherAfterRefresh
  cases sampleLoop env m.usePerfCounterTime m.hostCounters <;> rfl

/-- Gather executes the refresh block (query cleanup, configuration
parsing and the throwaway sample) exactly when the lastRefreshed
timestamp is zero. -/
theorem Gather_ranRefresh (env : PdhEnv) (m : WinPerfCounters) :
    (Gather env m).ranRefresh = m.lastRefreshedZero := by
  by_cases hz : m.lastRefreshedZero
  · simp only [Gather, hz, if_true]
    rcases hc : cleanQueries env m with ⟨m₁, oe⟩
    cases oe with
    | some e => simp [hc, hz]
    | none =>
      simp only [hc]
      rcases hp : ParseConfig env m₁ with ⟨m₂, logs, oe₂⟩
      cases oe₂ with
      | some e => simp [hp, hz]
      | none =>
        simp only [hp]
        cases ht : throwawayLoop env m₂.hostCounters with
        | some e => simp [ht, hz]
        | none => simp [ht, hz, gatherAfterRefresh_ranRefresh]
  · simp only [Bool.not_eq_true] at hz
    simp [Gather, hz, gatherAfterRefresh_ranRefresh]

/-- C7: the refresh block runs exactly when the lastRefreshed timestamp
is zero; after a Gather call that returned no error and marked the
engine refreshed, the next Gather call skips the refresh block entirely,
leaves the state unchanged, returns no error, and returns the same
per-host accumulators, hence the same set of instance keys. -/
theorem Gather_refresh_once (env : PdhEnv) (m : WinPerfCounters)
    (hzero : m.lastRefreshedZero = true)
    (herr : (Gather env m).err = none)
    (hset : (Gather env m).state.lastRefreshedZero = false) :
    (Gather env m).ranRefresh = true ∧
    (Gather env ((Gather env m).state)).ranRefresh = false ∧
    (Gather env ((Gather env m).state)).state = (Gather env m).state ∧
    (Gather env ((Gather env m).state)).acc = (Gather env m).acc ∧
    (Gather env ((Gather env m).state)).err = none := by
  have hG1 : (Gather env m).ranRefresh = true := by
    rw [Gather_ranRefresh, hzero]
  have hbody : Gather env m = (if m.lastRefreshedZero then
      match cleanQueries env m with
      | (m₁, some e) => ⟨m₁, [], [], some e, true⟩
      | (m₁, none) =>
        match ParseConfig env m₁ with
        | (m₂, logs, some e) => ⟨m₂, [], logs, some e, true⟩
        | (m₂, logs, none) =>
          match throwawayLoop env m₂.hostCounters with
          | some e => ⟨m₂, [], logs, checkError m₂.ignoredErrors e, true⟩
          | none =>
            gatherAfterRefresh env { m₂ with lastRefreshedZero := false } true logs
      else gatherAfterRefresh env m false []) := rfl
  rcases hc : cleanQueries env m with ⟨m₁, oe⟩
  have hm₁ : m₁.lastRefreshedZero = true := by
    have := cleanQueries_lastRefreshed env m
    rw [hc] at this; rw [this, hzero]
  cases oe with
  | some e =>
    exfalso
    rw [hbody, if_pos hzero] at hset
    simp only [hc] at hset
    rw [hm₁] at hset; cases hset
  | none =>
    rcases hp : ParseConfig env m₁ with ⟨m₂, logs, oe₂⟩
    have hm₂ : m₂.lastRefreshedZero = true := by
      have := ParseConfig_lastRefreshed env m₁
      rw [hp] at this; rw [this, hm₁]
    cases oe₂ with
    | some e =>
      exfalso
      rw [hbody, if_pos hzero] at hset
      simp only [hc, hp] at hset
      rw [hm₂] at hset; cases hset
    | none =>
      cases ht : throwawayLoop env m₂.hostCounters with
      | some e =>
        exfalso
        rw [hbody, if_pos hzero] at hset
        simp only [hc, hp, ht] at hset
        rw [hm₂] at hset; cases hset
      | none =>
        have hGm : Gather env m =
            gatherAfterRefresh env { m₂ with lastRefreshedZero := false } true logs := by
          rw [hbody, if_pos hzero]
          simp only [hc, hp, ht]
        have hstate : (Gather env m).state = { m₂ with lastRefreshedZero := false } := by
          rw [hGm, gatherAfterRefresh_state]
        have hG2 : Gather env ((Gather env m).state) =
            gatherAfterRefresh env { m₂ with lastRefreshedZero := false } false [] := by
          rw [hstate]
          simp [Gather]
        refine ⟨hG1, ?_, ?_, ?_, ?_⟩
        · rw [hG2, gatherAfterRefresh_ranRefresh]
        · rw [hG2, gatherAfterRefresh_state, hstate]
        · rw [hG2, hGm]
          exact gatherAfterRefresh_acc_congr env _ false true [] logs
        · rw [hG2]
          rw [hGm] at herr
          rw [gatherAfterRefresh_err_congr env _ false true [] logs]
          exact herr

/-- C8: a configuration with no objects is rejected with a configuration
error; when the registration of one object, source, counter and instance
combination fails, the innermost loop aborts at once with that error if
failOnMissing is set, logs the invalid path and continues with the next
combination if only warnOnMissing is set, and continues silently if
neither flag is set; an inner abort propagates unchanged through the
counter, source and object loops, so ParseConfig stops at the first
failing combination of a failOnMissing object. -/
theorem ParseConfig_missing_flags_policy (env : PdhEnv) (po : PerfObject) (computer counterName : String)
    (m : WinPerfCounters) (logs : List String) (inst : String) (rest : List String)
    (m₁ : WinPerfCounters) (logs₁ : List String) (e : GoError)
    (h : AddItem env m (formatPath computer po.objectName inst counterName) computer
        po.objectName inst counterName po.measurement po.includeTotal po.useRawValues
        = (m₁, logs₁, some e)) :
    (∀ m₂ : WinPerfCounters, m₂.object = [] →
       (ParseConfig env m₂).2.2 = some (errorNew "no performance objects configured")) ∧
    parseInstLoop env po computer counterName m logs (inst :: rest) =
      (if po.failOnMissing then
        (m₁, logs ++ logs₁ ++
          [invalidPathLog (formatPath computer po.objectName inst counterName) e], some e)
       else if po.warnOnMissing then
        parseInstLoop env po computer counterName m₁
          (logs ++ logs₁ ++
            [invalidPathLog (formatPath computer po.objectName inst counterName) e]) rest
       else
        parseInstLoop env po computer counterName m₁ (logs ++ logs₁) rest) ∧
    (∀ (m₃ : WinPerfCounters) (logs₃ : List String) (ctr : String)
       (rest₃ : List String) (m₄ : WinPerfCounters) (logs₄ : List String) (e₂ : GoError),
       parseInstLoop env po computer ctr m₃ [] po.instances = (m₄, logs₄, some e₂) →
       parseCounterLoop env po computer m₃ logs₃ (ctr :: rest₃) =
         (m₄, (logs₃ ++ if po.instances = [] then
           ["Missing Instances param for object " ++ po.objectName] else []) ++ logs₄,
          some e₂)) ∧
    (∀ (m₃ : WinPerfCounters) (logs₃ : List String) (comp : String)
       (rest₃ : List String) (m₄ : WinPerfCounters) (logs₄ : List String) (e₂ : GoError),
       parseCounterLoop env po (if comp = "" then "localhost" else comp) m₃ []
         po.counters = (m₄, logs₄, some e₂) →
       parseComputerLoop env po m₃ logs₃ (comp :: rest₃) = (m₄, logs₃ ++ logs₄, some e₂)) ∧
    (∀ (m₃ : WinPerfCounters) (logs₃ : List String) (rest₃ : List PerfObject)
       (m₄ : WinPerfCounters) (logs₄ : List String) (e₂ : GoError),
       parseComputerLoop env po m₃ []
         (if po.sources = [] then m₃.sources else po.sources) = (m₄, logs₄, some e₂) →
       parseObjectLoop env m₃ logs₃ (po :: rest₃) = (m₄, logs₃ ++ logs₄, some e₂)) := by
  refine ⟨?_, ?_, ?_, ?_, ?_⟩
  · intro m₂ ho
    by_cases hs : m₂.sources = [] <;> simp [ParseConfig, hs, ho]
  · by_cases hf : po.failOnMissing <;> by_cases hw : po.warnOnMissing <;>
      simp [parseInstLoop, h, hf, hw, invalidPathLog]
  · intro m₃ logs₃ ctr rest₃ m₄ logs₄ e₂ h₃
    simp [parseCounterLoop, h₃]
  · intro m₃ logs₃ comp rest₃ m₄ logs₄ e₂ h₃
    simp only [parseComputerLoop, h₃]
  · intro m₃ logs₃ rest₃ m₄ logs₄ e₂ h₃
    simp only [parseObjectLoop, h₃]

/-! ## PathCodec round trip (C2) -/

/-- Scanning a concatenation scans the right part first, then the left
part, with indices shifted by the left part's length. -/
theorem scanFrom_append (a b : List Char) (i : Int) (s : ScanState) :
    scanFrom (a ++ b) i s = scanFrom a i (scanFrom b (i + a.length) s) := by
  induction a generalizing i with
  | nil => simp [scanFrom]
  | cons x xs ih =>
    have hidx : i + ((x :: xs).length : Int) = (i + 1) + (xs.length : Int) := by
      simp only [List.length_cons]
      push_cast
      ring
    rw [List.cons_append, scanFrom, ih, hidx]
    rfl

/-- A plain character leaves the scan state unchanged. -/
theorem scanStep_plain (x : Char) (i : Int) (s : ScanState)
    (h : isPlainChar x = true) : scanStep x i s = s := by
  simp only [isPlainChar, Bool.and_eq_true, decide_eq_true_eq] at h
  obtain ⟨⟨h1, h2⟩, h3⟩ := h
  simp [scanStep, h1, h2, h3]

/-- A plain segment leaves the scan state unchanged. -/
theorem scanFrom_plain (a : List Char) (h : plainSeg a = true) :
    ∀ (i : Int) (s : ScanState), scanFrom a i s = s := by
  induction a with
  | nil => intro i s; rfl
  | cons x xs ih =>
    intro i s
    simp only [plainSeg, List.all_cons, Bool.and_eq_true] at h
    rw [scanFrom, ih (by simpa [plainSeg] using h.2), scanStep_plain x i s h.1]

/-- The first backslash met from the right records the counter
border. -/
theorem scanStep_bs_fresh (j : Int) :
    scanStep '\\' j initScanState = ⟨-1, -1, -1, j, -1, -1, 0⟩ := by
  simp [scanStep, initScanState]

/-- A closing parenthesis after the counter border records the right
instance border and raises the bracket level. -/
theorem scanStep_rp_after (j k : Int) (hk : k > -1) :
    scanStep ')' j ⟨-1, -1, -1, k, -1, -1, 0⟩ = ⟨-1, -1, -1, k, j, -1, 1⟩ := by
  have h1 : ¬((')' : Char) = '\\') := by decide
  have h2 : ¬((')' : Char) = '(') := by decide
  simp [scanStep, h1, h2, hk]

/-- The matching opening parenthesis records the left instance border
and the right object border. -/
theorem scanStep_lp_after (j k r : Int) (hk : k > -1) :
    scanStep '(' j ⟨-1, -1, -1, k, r, -1, 1⟩ = ⟨-1, j, -1, k, r, j, 0⟩ := by
  have h1 : ¬(('(' : Char) = '\\') := by decide
  simp [scanStep, h1, hk]

/-- The next backslash at the top level records the object border. -/
theorem scanStep_bs_object (j r₁ k r₂ li : Int) (hk : ¬(k = -1)) :
    scanStep '\\' j ⟨-1, r₁, -1, k, r₂, li, 0⟩ = ⟨-1, r₁, j, k, r₂, li, 0⟩ := by
  simp [scanStep, hk]

/-- The next backslash after the object border records the computer
border. -/
theorem scanStep_bs_computer (j ro lo k ri li : Int) (hk : ¬(k = -1))
    (hlo : ¬(lo = -1)) :
    scanStep '\\' j ⟨-1, ro, lo, k, ri, li, 0⟩ = ⟨j, ro, lo, k, ri, li, 0⟩ := by
  simp [scanStep, hk, hlo]

/-- With all three backslash borders recorded, a further backslash is
ignored. -/
theorem scanStep_bs_done (j lc ro lo k ri li : Int) (hk : ¬(k = -1))
    (hlo : ¬(lo = -1)) (hlc : ¬(lc = -1)) :
    scanStep '\\' j ⟨lc, ro, lo, k, ri, li, 0⟩ = ⟨lc, ro, lo, k, ri, li, 0⟩ := by
  simp [scanStep, hk, hlo, hlc]

/-- Scan of a path without instance parenthetical and without host
prefix, from an arbitrary start index. -/
theorem scanFrom_core_noinst (o c : List Char) (po : plainSeg o = true)
    (pc : plainSeg c = true) (n : Int) (hn : 0 ≤ n) :
    scanFrom ('\\' :: (o ++ ('\\' :: c))) n initScanState =
      ⟨-1, -1, n, n + 1 + (o.length : Int), -1, -1, 0⟩ := by
  rw [scanFrom, scanFrom_append, scanFrom_plain o po, scanFrom,
    scanFrom_plain c pc]
  rw [scanStep_bs_fresh (n + 1 + (o.length : Int))]
  rw [scanStep_bs_object n (-1) (n + 1 + (o.length : Int)) (-1) (-1) (by omega)]

/-- Scan of a path with instance parenthetical and without host prefix,
from an arbitrary start index. -/
theorem scanFrom_core_inst (o i c : List Char) (po : plainSeg o = true)
    (pi : plainSeg i = true) (pc : plainSeg c = true) (n : Int) (hn : 0 ≤ n) :
    scanFrom ('\\' :: (o ++ ('(' :: (i ++ (')' :: ('\\' :: c)))))) n initScanState =
      ⟨-1, n + 1 + (o.length : Int), n, n + 1 + (o.length : Int) + 1 + (i.length : Int) + 1,
       n + 1 + (o.length : Int) + 1 + (i.length : Int), n + 1 + (o.length : Int), 0⟩ := by
  rw [scanFrom, scanFrom_append, scanFrom_plain o po, scanFrom, scanFrom_append,
    scanFrom_plain i pi, scanFrom, scanFrom, scanFrom_plain c pc]
  rw [scanStep_bs_fresh (n + 1 + (o.length : Int) + 1 + (i.length : Int) + 1)]
  rw [scanStep_rp_after (n + 1 + (o.length : Int) + 1 + (i.length : Int))
    (n + 1 + (o.length : Int) + 1 + (i.length : Int) + 1) (by omega)]
  rw [scanStep_lp_after (n + 1 + (o.length : Int))
    (n + 1 + (o.length : Int) + 1 + (i.length : Int) + 1)
    (n + 1 + (o.length : Int) + 1 + (i.length : Int)) (by omega)]
  rw [scanStep_bs_object n (n + 1 + (o.length : Int))
    (n + 1 + (o.length : Int) + 1 + (i.length : Int) + 1)
    (n + 1 + (o.length : Int) + 1 + (i.length : Int))
    (n + 1 + (o.length : Int)) (by omega)]

/-- Scan of a path with host prefix and instance parenthetical. -/
theorem scanFrom_host_inst (hs o i c : List Char) (ph : plainSeg hs = true)
    (po : plainSeg o = true) (pi : plainSeg i = true) (pc : plainSeg c = true) :
    scanFrom
      ('\\' :: ('\\' :: (hs ++ ('\\' :: (o ++ ('(' :: (i ++ (')' :: ('\\' :: c)))))))))
      0 initScanState =
      ⟨0 + 1,
       0 + 1 + 1 + (hs.length : Int) + 1 + (o.length : Int),
       0 + 1 + 1 + (hs.length : Int),
       0 + 1 + 1 + (hs.length : Int) + 1 + (o.length : Int) + 1 + (i.length : Int) + 1,
       0 + 1 + 1 + (hs.length : Int) + 1 + (o.length : Int) + 1 + (i.length : Int),
       0 + 1 + 1 + (hs.length : Int) + 1 + (o.length : Int), 0⟩ := by
  rw [scanFrom, scanFrom, scanFrom_append, scanFrom_plain hs ph]
  rw [scanFrom_core_inst o i c po pi pc (0 + 1 + 1 + (hs.length : Int)) (by omega)]
  rw [scanStep_bs_computer (0 + 1)
    (0 + 1 + 1 + (hs.length : Int) + 1 + (o.length : Int))
    (0 + 1 + 1 + (hs.length : Int))
    (0 + 1 + 1 + (hs.length : Int) + 1 + (o.length : Int) + 1 + (i.length : Int) + 1)
    (0 + 1 + 1 + (hs.length : Int) + 1 + (o.length : Int) + 1 + (i.length : Int))
    (0 + 1 + 1 + (hs.length : Int) + 1 + (o.length : Int)) (by omega) (by omega)]
  rw [scanStep_bs_done 0 (0 + 1)
    (0 + 1 + 1 + (hs.length : Int) + 1 + (o.length : Int))
    (0 + 1 + 1 + (hs.length : Int))
    (0 + 1 + 1 + (hs.length : Int) + 1 + (o.length : Int) + 1 + (i.length : Int) + 1)
    (0 + 1 + 1 + (hs.length : Int) + 1 + (o.length : Int) + 1 + (i.length : Int))
    (0 + 1 + 1 + (hs.length : Int) + 1 + (o.length : Int)) (by omega) (by omega) (by omega)]

/-- Scan of a path with host prefix and without instance
parenthetical. -/
theorem scanFrom_host_noinst (hs o c : List Char) (ph : plainSeg hs = true)
    (po : plainSeg o = true) (pc : plainSeg c = true) :
    scanFrom ('\\' :: ('\\' :: (hs ++ ('\\' :: (o ++ ('\\' :: c)))))) 0 initScanState =
      ⟨0 + 1, -1, 0 + 1 + 1 + (hs.length : Int),
       0 + 1 + 1 + (hs.length : Int) + 1 + (o.length : Int), -1, -1, 0⟩ := by
  rw [scanFrom, scanFrom, scanFrom_append, scanFrom_plain hs ph]
  rw [scanFrom_core_noinst o c po pc (0 + 1 + 1 + (hs.length : Int)) (by omega)]
  rw [scanStep_bs_computer (0 + 1) (-1) (0 + 1 + 1 + (hs.length : Int))
    (0 + 1 + 1 + (hs.length : Int) + 1 + (o.length : Int)) (-1) (-1)
    (by omega) (by omega)]
  rw [scanStep_bs_done 0 (0 + 1) (-1) (0 + 1 + 1 + (hs.length : Int))
    (0 + 1 + 1 + (hs.length : Int) + 1 + (o.length : Int)) (-1) (-1)
    (by omega) (by omega) (by omega)]

/-- Parsing a hostless path with an instance parenthetical recovers
empty computer, object, instance and counter. -/
theorem extractL_inst (o i c : List Char) (po : plainSeg o = true)
    (pi : plainSeg i = true) (pc : plainSeg c = true) :
    extractL ('\\' :: (o ++ ('(' :: (i ++ (')' :: ('\\' :: c)))))) =
      .ok ([], o, i, c) := by
  simp only [extractL]
  rw [scanFrom_core_inst o i c po pi pc 0 (by omega)]
  norm_num
  have g1 : ¬((1 : Int) + (o.length : Int) = -1) := by omega
  have g2 : (-1 : Int) < 1 + (o.length : Int) := by omega
  have g3 : (-1 : Int) < 1 + (o.length : Int) + 1 + (i.length : Int) := by omega
  have g4 : ¬((1 : Int) + (o.length : Int) + 1 + (i.length : Int) = -1) := by omega
  simp only [g1, g2, g3, g4, if_false, if_true, and_true, true_and, and_false,
    false_and, or_self, not_false_eq_true, if_neg, false_or, or_false]
  have hobj : sliceL ('\\' :: (o ++ '(' :: (i ++ ')' :: '\\' :: c))) 1
      (1 + (o.length : Int)) = o := by
    unfold sliceL
    have ht : ((1 : Int) + (o.length : Int) - 1).toNat = o.length := by omega
    rw [ht]
    exact List.take_left o ('(' :: (i ++ ')' :: '\\' :: c))
  have hinst : sliceL ('\\' :: (o ++ '(' :: (i ++ ')' :: '\\' :: c)))
      (1 + (o.length : Int) + 1) (1 + (o.length : Int) + 1 + (i.length : Int)) = i := by
    unfold sliceL
    have ha : ((1 : Int) + (o.length : Int) + 1).toNat = o.length + 2 := by omega
    have hb : ((1 : Int) + (o.length : Int) + 1 + (i.length : Int) -
        (1 + (o.length : Int) + 1)).toNat = i.length := by omega
    rw [ha, hb]
    rw [show '\\' :: (o ++ '(' :: (i ++ ')' :: '\\' :: c))
        = ('\\' :: (o ++ ['('])) ++ (i ++ ')' :: '\\' :: c) from by simp]
    rw [List.drop_left' (by simp)]
    exact List.take_left i (')' :: '\\' :: c)
  have hctr : List.drop ((1 : Int) + (o.length : Int) + 1 + (i.length : Int)
      + 1 + 1).toNat ('\\' :: (o ++ '(' :: (i ++ ')' :: '\\' :: c))) = c := by
    rw [show '\\' :: (o ++ '(' :: (i ++ ')' :: '\\' :: c))
        = ('\\' :: (o ++ '(' :: (i ++ [')', '\\']))) ++ c from by simp]
    exact List.drop_left' (by simp; try omega)
  rw [hobj, hinst, hctr]

/-- Parsing a hostless path without parenthetical recovers the object
and counter, with an empty instance. -/
theorem extractL_noinst (o c : List Char) (po : plainSeg o = true)
    (pc : plainSeg c = true) :
    extractL ('\\' :: (o ++ ('\\' :: c))) = .ok ([], o, [], c) := by
  simp only [extractL]
  rw [scanFrom_core_noinst o c po pc 0 (by omega)]
  norm_num
  have g1 : ¬((1 : Int) + (o.length : Int) = -1) := by omega
  simp only [g1, if_false, if_neg, not_false_eq_true]
  have hobj : sliceL ('\\' :: (o ++ '\\' :: c)) 1 (1 + (o.length : Int)) = o := by
    unfold sliceL
    have ht : ((1 : Int) + (o.length : Int) - 1).toNat = o.length := by omega
    rw [ht]
    exact List.take_left o ('\\' :: c)
  have hctr : List.drop ((1 : Int) + (o.length : Int) + 1).toNat
      ('\\' :: (o ++ '\\' :: c)) = c := by
    rw [show '\\' :: (o ++ '\\' :: c) = ('\\' :: (o ++ ['\\'])) ++ c from by simp]
    exact List.drop_left' (by simp; try omega)
  rw [hobj, hctr]

/-- Parsing a hosted path with parenthetical recovers all four
segments. -/
theorem extractL_host_inst (hs o i c : List Char) (ph : plainSeg hs = true)
    (po : plainSeg o = true) (pi : plainSeg i = true) (pc : plainSeg c = true)
    (hlen : hs.length ≠ 0) :
    extractL ('\\' :: ('\\' :: (hs ++ ('\\' :: (o ++ ('(' :: (i ++ (')' :: ('\\' :: c))))))))) =
      .ok (hs, o, i, c) := by
  simp only [extractL]
  rw [scanFrom_host_inst hs o i c ph po pi pc]
  norm_num
  have g1 : ¬((2 : Int) + (hs.length : Int) + 1 + (o.length : Int) = -1) := by omega
  have g2 : ¬((2 : Int) + (hs.length : Int) = -1) := by omega
  have g3 : ¬((1 : Int) = 2 + (hs.length : Int) - 1) := by omega
  have g4 : (-1 : Int) < 2 + (hs.length : Int) + 1 + (o.length : Int) := by omega
  have g5 : (-1 : Int) <
      2 + (hs.length : Int) + 1 + (o.length : Int) + 1 + (i.length : Int) := by omega
  have g6 : ¬((2 : Int) + (hs.length : Int) + 1 + (o.length : Int) + 1 +
      (i.length : Int) = -1) := by omega
  simp only [g1, g2, g3, g4, g5, g6, if_false, if_true, and_true, true_and,
    and_false, false_and, or_self, not_false_eq_true, if_neg, false_or, or_false]
  have hcomp : sliceL ('\\' :: '\\' :: (hs ++ '\\' :: (o ++ '(' :: (i ++ ')' :: '\\' :: c))))
      2 (2 + (hs.length : Int)) = hs := by
    unfold sliceL
    have ht : ((2 : Int) + (hs.length : Int) - 2).toNat = hs.length := by omega
    rw [ht]
    exact List.take_left hs ('\\' :: (o ++ '(' :: (i ++ ')' :: '\\' :: c)))
  have hobj : sliceL ('\\' :: '\\' :: (hs ++ '\\' :: (o ++ '(' :: (i ++ ')' :: '\\' :: c))))
      (2 + (hs.length : Int) + 1) (2 + (hs.length : Int) + 1 + (o.length : Int)) = o := by
    unfold sliceL
    have ha : ((2 : Int) + (hs.length : Int) + 1).toNat = hs.length + 3 := by omega
    have hb : ((2 : Int) + (hs.length : Int) + 1 + (o.length : Int) -
        (2 + (hs.length : Int) + 1)).toNat = o.length := by omega
    rw [ha, hb]
    rw [show '\\' :: '\\' :: (hs ++ '\\' :: (o ++ '(' :: (i ++ ')' :: '\\' :: c)))
        = ('\\' :: '\\' :: (hs ++ ['\\'])) ++ (o ++ '(' :: (i ++ ')' :: '\\' :: c))
        from by simp]
    rw [List.drop_left' (by simp; try omega)]
    exact List.take_left o ('(' :: (i ++ ')' :: '\\' :: c))
  have hinst : sliceL ('\\' :: '\\' :: (hs ++ '\\' :: (o ++ '(' :: (i ++ ')' :: '\\' :: c))))
      (2 + (hs.length : Int) + 1 + (o.length : Int) + 1)
      (2 + (hs.length : Int) + 1 + (o.length : Int) + 1 + (i.length : Int)) = i := by
    unfold sliceL
    have ha : ((2 : Int) + (hs.length : Int) + 1 + (o.length : Int) + 1).toNat
        = hs.length + o.length + 4 := by omega
    have hb : ((2 : Int) + (hs.length : Int) + 1 + (o.length : Int) + 1 + (i.length : Int)
        - (2 + (hs.length : Int) + 1 + (o.length : Int) + 1)).toNat = i.length := by omega
    rw [ha, hb]
    rw [show '\\' :: '\\' :: (hs ++ '\\' :: (o ++ '(' :: (i ++ ')' :: '\\' :: c)))
        = ('\\' :: '\\' :: (hs ++ '\\' :: (o ++ ['(']))) ++ (i ++ ')' :: '\\' :: c)
        from by simp]
    rw [List.drop_left' (by simp; try omega)]
    exact List.take_left i (')' :: '\\' :: c)
  have hctr : List.drop ((2 : Int) + (hs.length : Int) + 1 + (o.length : Int) + 1 +
      (i.length : Int) + 1 + 1).toNat
      ('\\' :: '\\' :: (hs ++ '\\' :: (o ++ '(' :: (i ++ ')' :: '\\' :: c)))) = c := by
    rw [show '\\' :: '\\' :: (hs ++ '\\' :: (o ++ '(' :: (i ++ ')' :: '\\' :: c)))
        = ('\\' :: '\\' :: (hs ++ '\\' :: (o ++ '(' :: (i ++ [')', '\\'])))) ++ c
        from by simp]
    exact List.drop_left' (by simp; try omega)
  rw [hcomp, hobj, hinst, hctr]

/-- Parsing a hosted path without parenthetical recovers host, object
and counter, with an empty instance. -/
theorem extractL_host_noinst (hs o c : List Char) (ph : plainSeg hs = true)
    (po : plainSeg o = true) (pc : plainSeg c = true) (hlen : hs.length ≠ 0) :
    extractL ('\\' :: ('\\' :: (hs ++ ('\\' :: (o ++ ('\\' :: c)))))) =
      .ok (hs, o, [], c) := by
  simp only [extractL]
  rw [scanFrom_host_noinst hs o c ph po pc]
  norm_num
  have g1 : ¬((2 : Int) + (hs.length : Int) + 1 + (o.length : Int) = -1) := by omega
  have g2 : ¬((2 : Int) + (hs.length : Int) = -1) := by omega
  have g3 : ¬((1 : Int) = 2 + (hs.length : Int) - 1) := by omega
  simp only [g1, g2, g3, if_false, if_true, and_true, true_and, and_false,
    false_and, or_self, not_false_eq_true, if_neg, false_or, or_false]
  have hcomp : sliceL ('\\' :: '\\' :: (hs ++ '\\' :: (o ++ '\\' :: c)))
      2 (2 + (hs.length : Int)) = hs := by
    unfold sliceL
    have ht : ((2 : Int) + (hs.length : Int) - 2).toNat = hs.length := by omega
    rw [ht]
    exact List.take_left hs ('\\' :: (o ++ '\\' :: c))
  have hobj : sliceL ('\\' :: '\\' :: (hs ++ '\\' :: (o ++ '\\' :: c)))
      (2 + (hs.length : Int) + 1) (2 + (hs.length : Int) + 1 + (o.length : Int)) = o := by
    unfold sliceL
    have ha : ((2 : Int) + (hs.length : Int) + 1).toNat = hs.length + 3 := by omega
    have hb : ((2 : Int) + (hs.length : Int) + 1 + (o.length : Int) -
        (2 + (hs.length : Int) + 1)).toNat = o.length := by omega
    rw [ha, hb]
    rw [show '\\' :: '\\' :: (hs ++ '\\' :: (o ++ '\\' :: c))
        = ('\\' :: '\\' :: (hs ++ ['\\'])) ++ (o ++ '\\' :: c) from by simp]
    rw [List.drop_left' (by simp; try omega)]
    exact List.take_left o ('\\' :: c)
  have hctr : List.drop ((2 : Int) + (hs.length : Int) + 1 + (o.length : Int) + 1).toNat
      ('\\' :: '\\' :: (hs ++ '\\' :: (o ++ '\\' :: c))) = c := by
    rw [show '\\' :: '\\' :: (hs ++ '\\' :: (o ++ '\\' :: c))
        = ('\\' :: '\\' :: (hs ++ '\\' :: (o ++ ['\\']))) ++ c from by simp]
    exact List.drop_left' (by simp; try omega)
  rw [hcomp, hobj, hctr]

/-- C2 (amended): for every tuple of plain segments (no backslash and no
parentheses), parsing the formatted path recovers the object and counter
exactly; the host is recovered exactly when it is neither empty nor the
localhost alias, and parses back as the empty string otherwise (the
no-prefix form); the instance is recovered exactly when it is not the
no-instance sentinel, and parses back as the empty string for the
sentinel (the no-parenthetical form). -/
theorem extract_formatPath_roundTrip (computer objectName inst counter : String)
    (hc : plainSeg computer.data = true) (ho : plainSeg objectName.data = true)
    (hi : plainSeg inst.data = true) (hk : plainSeg counter.data = true) :
    extractCounterInfoFromCounterPath (formatPath computer objectName inst counter) =
      .ok (if computer = "" ∨ computer = "localhost" then "" else computer,
           objectName, if inst = emptyInstance then "" else inst, counter) := by
  have hbs : ("\\" : String).data = ['\\'] := rfl
  have hlpd : ("(" : String).data = ['('] := rfl
  have hrpd : (")" : String).data = [')'] := rfl
  unfold extractCounterInfoFromCounterPath
  by_cases hcm : computer ≠ "" ∧ computer ≠ "localhost"
  · have hcm2 : ¬(computer = "" ∨ computer = "localhost") := by
      rcases hcm with ⟨h1, h2⟩
      rintro (h | h)
      · exact h1 h
      · exact h2 h
    have hlen : computer.data.length ≠ 0 := by
      intro h0
      apply hcm.1
      apply String.ext
      simpa using List.length_eq_zero.mp h0
    by_cases hin : inst = emptyInstance
    · rw [show (formatPath computer objectName inst counter).data =
          '\\' :: ('\\' :: (computer.data ++ ('\\' :: (objectName.data ++
            ('\\' :: counter.data))))) from by
        simp [formatPath, hcm, hin, hbs]]
      rw [extractL_host_noinst computer.data objectName.data counter.data hc ho hk hlen]
      rw [if_neg hcm2, if_pos hin]
      rfl
    · rw [show (formatPath computer objectName inst counter).data =
          '\\' :: ('\\' :: (computer.data ++ ('\\' :: (objectName.data ++
            ('(' :: (inst.data ++ (')' :: ('\\' :: counter.data)))))))) from by
        simp [formatPath, hcm, hin, hbs, hlpd, hrpd]]
      rw [extractL_host_inst computer.data objectName.data inst.data counter.data
        hc ho hi hk hlen]
      rw [if_neg hcm2, if_neg hin]
      rfl
  · have hcm2 : computer = "" ∨ computer = "localhost" := by
      by_contra h
      push_neg at h
      exact hcm ⟨h.1, h.2⟩
    by_cases hin : inst = emptyInstance
    · rw [show (formatPath computer objectName inst counter).data =
          '\\' :: (objectName.data ++ ('\\' :: counter.data)) from by
        simp [formatPath, hcm, hin, hbs]]
      rw [extractL_noinst objectName.data counter.data ho hk]
      rw [if_pos hcm2, if_pos hin]
      rfl
    · rw [show (formatPath computer objectName inst counter).data =
          '\\' :: (objectName.data ++ ('(' :: (inst.data ++ (')' ::
            ('\\' :: counter.data))))) from by
        simp [formatPath, hcm, hin, hbs, hlpd, hrpd]]
      rw [extractL_inst objectName.data inst.data counter.data ho hi hk]
      rw [if_pos hcm2, if_neg hin]
      rfl

/-! ## Witnesses and counterexamples at concrete inputs -/

/-- C2 counterexample: formatting with the no-instance sentinel and
parsing back does not recover the sentinel; the parsed instance is the
empty string. -/
theorem formatPath_sentinel_not_recovered :
    extractCounterInfoFromCounterPath (formatPath "" "Memory" "------" "Faults")
      ≠ .ok ("", "Memory", "------", "Faults") ∧
    extractCounterInfoFromCounterPath (formatPath "" "Memory" "------" "Faults")
      = .ok ("", "Memory", "", "Faults") := by
  refine ⟨?_, rfl⟩
  intro h
  rw [show extractCounterInfoFromCounterPath (formatPath "" "Memory" "------" "Faults")
      = .ok ("", "Memory", "", "Faults") from rfl] at h
  simp at h

/-- Witness instantiating the amended C2 round trip on a concrete
hosted tuple. -/
theorem extract_formatPath_roundTrip_witness :
    extractCounterInfoFromCounterPath (formatPath "host1" "Processor" "0" "% Time") =
      .ok (if ("host1" : String) = "" ∨ ("host1" : String) = "localhost" then ""
           else "host1", "Processor",
           if ("0" : String) = emptyInstance then "" else "0", "% Time") :=
  extract_formatPath_roundTrip "host1" "Processor" "0" "% Time"
    (by decide) (by decide) (by decide) (by decide)

/-- Witness instantiating the C5 theorem on a host whose sampling fails
with an ignored no-data error. -/
theorem Gather_sampling_failure_policy_witness :
    (Gather envSampleFail c5Engine).acc = [] ∧
    (Gather envSampleFail c5Engine).err = checkError c5Engine.ignoredErrors noDataErr ∧
    (checkError c5Engine.ignoredErrors noDataErr = none ↔
       ∃ c, noDataErr.pdhCode = some c ∧ PDHErrors c ∈ c5Engine.ignoredErrors) :=
  Gather_sampling_failure_policy envSampleFail c5Engine [] [] "localhost" c5Info
    noDataErr rfl rfl (by simp) rfl

/-- Witness instantiating the C6 theorem on a benign array-read
failure. -/
theorem gatherLoop_benign_error_policy_witness :
    (isKnownCounterDataError benignErr = true ↔
       ∃ c, benignErr.pdhCode = some c ∧
         (c = PdhInvalidData ∨ c = PdhCalcNegativeDenominator ∨
          c = PdhCalcNegativeValue ∨ c = PdhCstatusInvalidData ∨ c = PdhNoData)) ∧
    (isKnownCounterDataError benignErr = true →
       gatherLoop arrFailQuery false [] [] [c9Metric] =
         gatherLoop arrFailQuery false [] ([] ++ [counterSkipWarn c9Metric benignErr]) []) ∧
    (isKnownCounterDataError benignErr = false →
       gatherLoop arrFailQuery false [] [] [c9Metric] =
         ([], [], some (counterAbortError c9Metric benignErr))) ∧
    (∀ (env : PdhEnv) (useExp₂ : Bool) (hosts : List (String × HostCountersInfo)),
       (extractAll env useExp₂ hosts).1 =
         hosts.map fun p => (p.2.computer, (gatherComputerCounters env useExp₂ p.2).1)) :=
  gatherLoop_benign_error_policy arrFailQuery false [] [] c9Metric [] benignErr
    (Or.inr ⟨rfl, rfl⟩)

/-- Witness instantiating the C10 theorem on a host whose array read
fails with an unlisted code. -/
theorem Gather_extraction_failure_logged_witness :
    (Gather envExtractFail c10Engine).err = none ∧
    (Gather envExtractFail c10Engine).acc = c10Engine.hostCounters.map
      (fun p => (p.2.computer,
        (gatherComputerCounters envExtractFail c10Engine.useWildcardsExpansion p.2).1)) ∧
    (c10Info.computer, ([] : Accumulator)) ∈ (Gather envExtractFail c10Engine).acc ∧
    ("error during collecting data on host " ++ c10Info.computer ++ ": " ++
        (counterAbortError c9Metric strangePdhErr).msg)
      ∈ (Gather envExtractFail c10Engine).logs :=
  Gather_extraction_failure_logged envExtractFail c10Engine "localhost" c10Info
    (counterAbortError c9Metric strangePdhErr) rfl rfl (by simp [c10Engine]) rfl

/-- Witness instantiating the C7 theorem on a fresh engine with one
configured object. -/
theorem Gather_refresh_once_witness :
    (Gather envAllOk c7Engine).ranRefresh = true ∧
    (Gather envAllOk ((Gather envAllOk c7Engine).state)).ranRefresh = false ∧
    (Gather envAllOk ((Gather envAllOk c7Engine).state)).state
      = (Gather envAllOk c7Engine).state ∧
    (Gather envAllOk ((Gather envAllOk c7Engine).state)).acc
      = (Gather envAllOk c7Engine).acc ∧
    (Gather envAllOk ((Gather envAllOk c7Engine).state)).err = none :=
  Gather_refresh_once envAllOk c7Engine rfl rfl rfl

/-- Witness instantiating the C8 theorem on a failing registration of a
failOnMissing object. -/
theorem ParseConfig_missing_flags_policy_witness :
    (∀ m₂ : WinPerfCounters, m₂.object = [] →
       (ParseConfig envAddFail m₂).2.2 =
         some (errorNew "no performance objects configured")) ∧
    parseInstLoop envAddFail c8Object "localhost" "C" c8Engine [] ("*" :: []) =
      (if c8Object.failOnMissing then
        (c8EngineAfter, [] ++ [] ++
          [invalidPathLog (formatPath "localhost" c8Object.objectName "*" "C")
            strangePdhErr], some strangePdhErr)
       else if c8Object.warnOnMissing then
        parseInstLoop envAddFail c8Object "localhost" "C" c8EngineAfter
          ([] ++ [] ++
            [invalidPathLog (formatPath "localhost" c8Object.objectName "*" "C")
              strangePdhErr]) []
       else
        parseInstLoop envAddFail c8Object "localhost" "C" c8EngineAfter ([] ++ []) []) ∧
    (∀ (m₃ : WinPerfCounters) (logs₃ : List String) (ctr : String)
       (rest₃ : List String) (m₄ : WinPerfCounters) (logs₄ : List String) (e₂ : GoError),
       parseInstLoop envAddFail c8Object "localhost" ctr m₃ [] c8Object.instances
           = (m₄, logs₄, some e₂) →
       parseCounterLoop envAddFail c8Object "localhost" m₃ logs₃ (ctr :: rest₃) =
         (m₄, (logs₃ ++ if c8Object.instances = [] then
           ["Missing Instances param for object " ++ c8Object.objectName] else [])
             ++ logs₄, some e₂)) ∧
    (∀ (m₃ : WinPerfCounters) (logs₃ : List String) (comp : String)
       (rest₃ : List String) (m₄ : WinPerfCounters) (logs₄ : List String) (e₂ : GoError),
       parseCounterLoop envAddFail c8Object (if comp = "" then "localhost" else comp)
           m₃ [] c8Object.counters = (m₄, logs₄, some e₂) →
       parseComputerLoop envAddFail c8Object m₃ logs₃ (comp :: rest₃)
         = (m₄, logs₃ ++ logs₄, some e₂)) ∧
    (∀ (m₃ : WinPerfCounters) (logs₃ : List String) (rest₃ : List PerfObject)
       (m₄ : WinPerfCounters) (logs₄ : List String) (e₂ : GoError),
       parseComputerLoop envAddFail c8Object m₃ []
           (if c8Object.sources = [] then m₃.sources else c8Object.sources)
           = (m₄, logs₄, some e₂) →
       parseObjectLoop envAddFail m₃ logs₃ (c8Object :: rest₃)
         = (m₄, logs₃ ++ logs₄, some e₂)) :=
  ParseConfig_missing_flags_policy envAddFail c8Object "localhost" "C" c8Engine []
    "*" [] c8EngineAfter [] strangePdhErr rfl

end Pdh
